import Mathlib

/-!
Shallow embedding of the helpdesk-dashboard-api core (Go) in Lean 4.

The embedding covers:
* `internal/pager`: page-size resolution (`Size`) and the opaque cursor codec
  (`EncodeCursor` / `DecodeCursor`, i.e. `base64.RawURLEncoding` over
  `json.Marshal` of a `{id, time}` struct).
* `internal/helpdesk`: status normalization (`mapStatus`, `mapTicketStatus`),
  predicate building (`TicketQuery.ToSql`, `HelpDeskQuery.ToSql`,
  `BatchGetTicketsQuery.ToSql`), row scanning and sentinel normalization
  (`listTickets` / `listHelpDesks` row loops), the list services
  (`ListTickets` / `ListHelpDesks`), the aggregate report builders and the
  excel export batch loop (`GenExcel` / `batchGetTickets` /
  `genTicketsToExcel`).

Modelling conventions:
* Go `time.Time` values are modelled broken down into calendar fields
  (`GoTime`), always in UTC; monotonic-clock readings and non-UTC locations
  do not occur in this program's data path (values come from `datetime`
  columns of SQL Server, whose years lie in 1753..9999).
* Machine integers are modelled as `Nat` (`uint64` page sizes; counts).
* Bytes are `Nat` values `< 256`.
* The SQL store is modelled as the list of matching view rows, in the order
  produced by the query's `ORDER BY` clause, with string comparison `<`
  modelled as lexicographic comparison of the unicode scalar values
  (`charListLtb`).
-/

/-! ## Lexicographic string comparison (model of SQL string ordering) -/

/-- Lexicographic comparison of char lists by unicode scalar value. -/
def charListLtb : List Char → List Char → Bool
  | [], [] => false
  | [], _ :: _ => true
  | _ :: _, [] => false
  | a :: as, b :: bs =>
    if a.toNat < b.toNat then true
    else if a.toNat = b.toNat then charListLtb as bs
    else false

/-- `strLtb a b` models `a < b` for SQL string comparison. -/
def strLtb (a b : String) : Bool := charListLtb a.toList b.toList

/-- `strLe a b` models `a <= b` (non-strict string order, used by ORDER BY ASC). -/
def strLe (a b : String) : Prop := strLtb b a = false

instance : DecidableRel strLe := fun a b => by
  unfold strLe
  infer_instance

/-! ## Go `time.Time` model -/

/-- Broken-down UTC time, the model of Go `time.Time` used by this program. -/
structure GoTime where
  year : Nat
  month : Nat
  day : Nat
  hour : Nat
  minute : Nat
  second : Nat
  nanosecond : Nat
deriving DecidableEq, Repr

/-- Days in a month of the proleptic Gregorian calendar (Go `time` package). -/
def daysInMonth (y m : Nat) : Nat :=
  if m = 2 then
    if y % 4 = 0 ∧ (y % 100 ≠ 0 ∨ y % 400 = 0) then 29 else 28
  else if m = 4 ∨ m = 6 ∨ m = 9 ∨ m = 11 then 30
  else 31

/-- The calendar values representable as a Go `time.Time` that
`time.Time.MarshalJSON` accepts (it rejects years outside 0..9999). -/
def GoTime.Valid (t : GoTime) : Prop :=
  t.year ≤ 9999 ∧ 1 ≤ t.month ∧ t.month ≤ 12 ∧
  1 ≤ t.day ∧ t.day ≤ daysInMonth t.year t.month ∧
  t.hour ≤ 23 ∧ t.minute ≤ 59 ∧ t.second ≤ 59 ∧ t.nanosecond < 1000000000

instance (t : GoTime) : Decidable t.Valid := by
  unfold GoTime.Valid
  infer_instance

/-- The Go zero `time.Time` (January 1, year 1, 00:00:00 UTC). -/
def GoTime.zero : GoTime := ⟨1, 1, 1, 0, 0, 0, 0⟩

/-- Model of Go `time.Time.IsZero`. -/
def GoTime.IsZero (t : GoTime) : Prop := t = GoTime.zero

instance (t : GoTime) : Decidable t.IsZero := by
  unfold GoTime.IsZero
  infer_instance

/-! ## Decimal digit rendering (Go `time` zero-padded fields) -/

/-- The decimal digit character for `n < 10`. -/
def digitChar (n : Nat) : Char :=
  match n with
  | 0 => '0' | 1 => '1' | 2 => '2' | 3 => '3' | 4 => '4'
  | 5 => '5' | 6 => '6' | 7 => '7' | 8 => '8' | _ => '9'

/-- `padNum w n` renders `n` as exactly `w` zero-padded decimal digits
(the rendering used by Go `time.Time.Format` for fixed-width fields). -/
def padNum : Nat → Nat → List Char
  | 0, _ => []
  | w + 1, n => padNum w (n / 10) ++ [digitChar (n % 10)]

/-- Numeric value of a list of decimal digit characters. -/
def natOfDigits (ds : List Char) : Nat :=
  ds.foldl (fun a c => a * 10 + (c.toNat - 48)) 0

/-- Drops trailing `'0'` characters (Go `time` fractional-second rendering). -/
def trimZeros (ds : List Char) : List Char :=
  (ds.reverse.dropWhile (· == '0')).reverse

/-- The fractional-second part rendered by Go's `time.RFC3339Nano` layout:
omitted when the nanosecond field is zero, otherwise `.` followed by the nine
nanosecond digits with trailing zeros removed. -/
def fracPart (n : Nat) : List Char :=
  if n = 0 then [] else '.' :: trimZeros (padNum 9 n)

/-- Go `t.Format(time.RFC3339Nano)` of a UTC time, as a char list. -/
def formatRFC3339Nano (t : GoTime) : List Char :=
  padNum 4 t.year ++ '-' :: (padNum 2 t.month ++ '-' :: (padNum 2 t.day ++
  'T' :: (padNum 2 t.hour ++ ':' :: (padNum 2 t.minute ++ ':' ::
  (padNum 2 t.second ++ fracPart t.nanosecond ++ ['Z'])))))

/-- Go `t.Format("2006-01-02")`, as a string. -/
def formatYMD (t : GoTime) : String :=
  (padNum 4 t.year ++ '-' :: (padNum 2 t.month ++ '-' :: padNum 2 t.day)).asString

/-- Go `t.Format("02/01/2006")`, as a string. -/
def formatDMY (t : GoTime) : String :=
  (padNum 2 t.day ++ '/' :: (padNum 2 t.month ++ '/' :: padNum 4 t.year)).asString

/-! ## `internal/pager`: page size resolution -/

/-- Model of `pager.Size`:

    func Size(size uint64) uint64 {
        if size <= 0  { return 20 }
        if size > 200 { return 200 }
        return size
    }

The `uint64` argument is modelled as `Nat` (so `size <= 0` holds iff
`size = 0`). -/
def Size (size : Nat) : Nat :=
  if size ≤ 0 then 20
  else if size > 200 then 200
  else size

/-! ## `internal/helpdesk`: status normalization -/

/-- Model of `helpdesk.mapTicketStatus` (switch over the raw status string;
any unlisted raw value falls to the default branch). -/
def mapTicketStatus (status : String) : String :=
  if status = "PENDING" ∨ status = "FINISHED,MANAGER(APPROVE),IT(PENDING)" then "PENDING"
  else if status = "FINISHED,MANAGER(APPROVE),IT(CANCEL)" then "CANCELED"
  else if status = "FINISHED,MANAGER(APPROVE),IT(IN PROGRESS)" then "IN_PROGRESS"
  else if status = "REQUEST" then "REQUEST"
  else if status = "FINISHED,MANAGER(APPROVE),IT(RESOLVE)" then "RESOLVED"
  else if status = "FINISHED,MANAGER(APPROVE),IT(SENDING)" then "SENDING"
  else if status = "FINISHED,MANAGER(APPROVE),IT(REPENDING)" then "RE_PENDING"
  else if status = "REJECT,MANAGER(REJECT)" then "REJECTED"
  else "PENDING"

/-- Model of `helpdesk.mapStatus` (same switch, declared separately in the
source next to `listHelpDesks`). -/
def mapStatus (status : String) : String :=
  if status = "PENDING" ∨ status = "FINISHED,MANAGER(APPROVE),IT(PENDING)" then "PENDING"
  else if status = "FINISHED,MANAGER(APPROVE),IT(CANCEL)" then "CANCELED"
  else if status = "FINISHED,MANAGER(APPROVE),IT(IN PROGRESS)" then "IN_PROGRESS"
  else if status = "REQUEST" then "REQUEST"
  else if status = "FINISHED,MANAGER(APPROVE),IT(RESOLVE)" then "RESOLVED"
  else if status = "FINISHED,MANAGER(APPROVE),IT(SENDING)" then "SENDING"
  else if status = "FINISHED,MANAGER(APPROVE),IT(REPENDING)" then "RE_PENDING"
  else if status = "REJECT,MANAGER(REJECT)" then "REJECTED"
  else "PENDING"

/-- The raw status strings that appear in the source's switch cases. -/
def knownRawStatuses : List String :=
  ["PENDING",
   "FINISHED,MANAGER(APPROVE),IT(PENDING)",
   "FINISHED,MANAGER(APPROVE),IT(CANCEL)",
   "FINISHED,MANAGER(APPROVE),IT(IN PROGRESS)",
   "REQUEST",
   "FINISHED,MANAGER(APPROVE),IT(RESOLVE)",
   "FINISHED,MANAGER(APPROVE),IT(SENDING)",
   "FINISHED,MANAGER(APPROVE),IT(REPENDING)",
   "REJECT,MANAGER(REJECT)"]

/-! ## JSON string escaping (Go `encoding/json`, HTML escaping on) -/

/-- Lowercase hexadecimal digit character for `n < 16`. -/
def hexChar (n : Nat) : Char :=
  match n with
  | 0 => '0' | 1 => '1' | 2 => '2' | 3 => '3' | 4 => '4'
  | 5 => '5' | 6 => '6' | 7 => '7' | 8 => '8' | 9 => '9'
  | 10 => 'a' | 11 => 'b' | 12 => 'c' | 13 => 'd' | 14 => 'e' | _ => 'f'

/-- The four hex digits of `n % 65536` (as written by Go's `\u` escapes). -/
def hex4 (n : Nat) : List Char :=
  [hexChar (n / 4096 % 16), hexChar (n / 256 % 16), hexChar (n / 16 % 16), hexChar (n % 16)]

/-- Numeric value of a hexadecimal digit character (Go `getu4` accepts both
lowercase and uppercase digits). -/
def hexVal (c : Char) : Option Nat :=
  if c = '0' then some 0 else if c = '1' then some 1
  else if c = '2' then some 2 else if c = '3' then some 3
  else if c = '4' then some 4 else if c = '5' then some 5
  else if c = '6' then some 6 else if c = '7' then some 7
  else if c = '8' then some 8 else if c = '9' then some 9
  else if c = 'a' ∨ c = 'A' then some 10 else if c = 'b' ∨ c = 'B' then some 11
  else if c = 'c' ∨ c = 'C' then some 12 else if c = 'd' ∨ c = 'D' then some 13
  else if c = 'e' ∨ c = 'E' then some 14 else if c = 'f' ∨ c = 'F' then some 15
  else none

/-- Value of four hex digit characters. -/
def hex4Val (a b c d : Char) : Option Nat := do
  let va ← hexVal a
  let vb ← hexVal b
  let vc ← hexVal c
  let vd ← hexVal d
  some (va * 4096 + vb * 256 + vc * 16 + vd)

/-- Go `encoding/json` escaping of one character inside a string literal
(`encodeState.string` with the default HTML escaping): `"`, `\`, newline,
carriage return and tab get two-character escapes; other control characters
and the HTML-sensitive `<`, `>`, `&` get `\u00xx` escapes; U+2028 and U+2029
get `\u202x` escapes; every other character is written literally. -/
def escapeChar (c : Char) : List Char :=
  if c = '"' then ['\\', '"']
  else if c = '\\' then ['\\', '\\']
  else if c = '\n' then ['\\', 'n']
  else if c = '\r' then ['\\', 'r']
  else if c = '\t' then ['\\', 't']
  else if c.toNat < 32 ∨ c = '<' ∨ c = '>' ∨ c = '&' then '\\' :: 'u' :: hex4 c.toNat
  else if c.toNat = 0x2028 ∨ c.toNat = 0x2029 then '\\' :: 'u' :: hex4 c.toNat
  else [c]

/-- A JSON string literal (opening quote, escaped characters, closing quote)
as produced by Go `encoding/json` for the string with characters `l`. -/
def quoteJSON (l : List Char) : List Char :=
  '"' :: (l.map escapeChar).flatten ++ ['"']

/-- The unicode replacement character, written by Go for lone surrogates. -/
def uFFFD : Char := Char.ofNat 0xFFFD

/-- The two-character escapes accepted by Go's JSON string unquoting. -/
def simpleEscape (e : Char) : Option Char :=
  if e = '"' then some '"'
  else if e = '\\' then some '\\'
  else if e = '/' then some '/'
  else if e = 'b' then some (Char.ofNat 8)
  else if e = 'f' then some (Char.ofNat 12)
  else if e = 'n' then some '\n'
  else if e = 'r' then some '\r'
  else if e = 't' then some '\t'
  else none

/-- Parser for the body of a JSON string literal (after the opening quote),
modelling Go `encoding/json` unquoting: returns the decoded characters and
the input remaining after the closing quote.  Simple two-character escapes,
`\uXXXX` escapes (with UTF-16 surrogate pairs combined and lone surrogates
replaced by U+FFFD, as in Go's `unquoteBytes`) and literal characters are
accepted; unescaped control characters and unterminated strings are
rejected.  The Go loop consumes at least one input character per step; that
termination argument appears here as the explicit fuel, which
`parseStringBody` seeds with the input length so it never runs out. -/
def parseStringBodyF : Nat → List Char → Option (List Char × List Char)
  | _, [] => none
  | 0, _ :: _ => none
  | fuel + 1, c :: rest =>
    if c = '"' then some ([], rest)
    else if c = '\\' then
      match rest with
      | [] => none
      | e :: rest2 =>
        if e = 'u' then
          match rest2 with
          | a :: b :: c2 :: d :: rest3 =>
            match hex4Val a b c2 d with
            | none => none
            | some v =>
              if 0xD800 ≤ v ∧ v ≤ 0xDBFF then
                match rest3 with
                | '\\' :: 'u' :: a2 :: b2 :: c3 :: d2 :: rest4 =>
                  match hex4Val a2 b2 c3 d2 with
                  | none => none
                  | some v2 =>
                    if 0xDC00 ≤ v2 ∧ v2 ≤ 0xDFFF then
                      (parseStringBodyF fuel rest4).map (fun p =>
                        (Char.ofNat (0x10000 + (v - 0xD800) * 1024 + (v2 - 0xDC00)) :: p.1, p.2))
                    else (parseStringBodyF fuel rest3).map (fun p => (uFFFD :: p.1, p.2))
                | _ => (parseStringBodyF fuel rest3).map (fun p => (uFFFD :: p.1, p.2))
              else if 0xDC00 ≤ v ∧ v ≤ 0xDFFF then
                (parseStringBodyF fuel rest3).map (fun p => (uFFFD :: p.1, p.2))
              else (parseStringBodyF fuel rest3).map (fun p => (Char.ofNat v :: p.1, p.2))
          | _ => none
        else
          match simpleEscape e with
          | none => none
          | some ch => (parseStringBodyF fuel rest2).map (fun p => (ch :: p.1, p.2))
    else if c.toNat < 32 then none
    else (parseStringBodyF fuel rest).map (fun p => (c :: p.1, p.2))

/-- The string-body parser at its natural fuel. -/
def parseStringBody (cs : List Char) : Option (List Char × List Char) :=
  parseStringBodyF cs.length cs

/-- Parser for a whole JSON string literal, starting at the opening quote. -/
def parseJSONString (cs : List Char) : Option (List Char × List Char) :=
  match cs with
  | '"' :: rest => parseStringBody rest
  | _ => none


/-! ## RFC 3339 timestamp parsing (Go `time.Parse(time.RFC3339, ...)`) -/

/-- Reads exactly `w` decimal digits, yielding their value and checking the
inclusive range `lo..hi` (Go's `time.Parse` range-checks each field). -/
def readFixed (w lo hi : Nat) (cs : List Char) : Option (Nat × List Char) :=
  let ds := cs.take w
  if ds.length = w ∧ ds.all Char.isDigit then
    let n := natOfDigits ds
    if lo ≤ n ∧ n ≤ hi then some (n, cs.drop w) else none
  else none

/-- Expects the exact character `c` at the head of the input. -/
def expectChar (c : Char) (cs : List Char) : Option (List Char) :=
  match cs with
  | d :: rest => if d = c then some rest else none
  | _ => none

/-- Parses an optional fractional-second part: absent, or `.` followed by one
to nine digits, yielding the nanosecond value. -/
def parseFraction (cs : List Char) : Option (Nat × List Char) :=
  match cs with
  | c :: rest =>
    if c = '.' then
      let ds := rest.takeWhile Char.isDigit
      if 1 ≤ ds.length ∧ ds.length ≤ 9 then
        some (natOfDigits ds * 10 ^ (9 - ds.length), rest.drop ds.length)
      else none
    else some (0, c :: rest)
  | [] => some (0, [])

/-- Model of Go `time.Parse(time.RFC3339, s)` restricted to the UTC (`Z`)
offset, which is the only offset this program's encoder emits: fixed-width
date and clock fields with range checks (including the per-month day check),
an optional nanosecond fraction, and a terminating `Z`. -/
def parseRFC3339 (cs : List Char) : Option (GoTime × List Char) := do
  let (y, cs) ← readFixed 4 0 9999 cs
  let cs ← expectChar '-' cs
  let (mo, cs) ← readFixed 2 1 12 cs
  let cs ← expectChar '-' cs
  let (d, cs) ← readFixed 2 1 31 cs
  if d > daysInMonth y mo then none else
  let cs ← expectChar 'T' cs
  let (h, cs) ← readFixed 2 0 23 cs
  let cs ← expectChar ':' cs
  let (mi, cs) ← readFixed 2 0 59 cs
  let cs ← expectChar ':' cs
  let (s, cs) ← readFixed 2 0 59 cs
  let (ns, cs) ← parseFraction cs
  let cs ← expectChar 'Z' cs
  some (⟨y, mo, d, h, mi, s, ns⟩, cs)

/-! ## The cursor and its JSON form (`internal/pager`) -/

/-- Model of `pager.Cursor`:

    type Cursor struct {
        ID   string    `json:"id"`
        Time time.Time `json:"time"`
    }
-/
structure Cursor where
  ID : String
  Time : GoTime
deriving DecidableEq, Repr

/-- Model of `json.Marshal` on a `*pager.Cursor`: the canonical object with
the two tagged fields in declaration order, the time rendered by
`time.Time.MarshalJSON` (quoted RFC3339Nano).  Returns `none` when marshalling
fails, which happens exactly when the year is outside 0..9999 (the check in
`time.Time.MarshalJSON`; the year is a `Nat` here, so only the upper bound
can fail). -/
def marshalCursorChars (c : Cursor) : Option (List Char) :=
  if c.Time.year ≤ 9999 then
    some ("\x7b\"id\":".toList ++ quoteJSON c.ID.toList ++ ",\"time\":\"".toList ++
      formatRFC3339Nano c.Time ++ "\"\x7d".toList)
  else none

/-- Expects the given characters verbatim at the head of the input. -/
def expectChars (pat cs : List Char) : Option (List Char) :=
  if pat.isPrefixOf cs then some (cs.drop pat.length) else none

/-- Model of `json.Unmarshal` into a `*pager.Cursor`, applied to the canonical
object layout produced by `marshalCursorChars` (the only layout reachable
through `DecodeCursor` of an encoded cursor): both string fields are unquoted
with `parseJSONString`, the time field is then parsed as RFC3339. -/
def parseCursorChars (cs : List Char) : Option Cursor := do
  let cs ← expectChars "\x7b\"id\":".toList cs
  let (idChars, cs) ← parseJSONString cs
  let cs ← expectChars ",\"time\":".toList cs
  let (tChars, cs) ← parseJSONString cs
  let (t, tRest) ← parseRFC3339 tChars
  if tRest = [] then
    let cs ← expectChars "\x7d".toList cs
    if cs = [] then some ⟨idChars.asString, t⟩ else none
  else none

/-! ## UTF-8 (Go strings are UTF-8 byte sequences) -/

/-- UTF-8 encoding of one unicode scalar value, as bytes. -/
def utf8EncodeChar (c : Char) : List Nat :=
  if c.toNat < 0x80 then [c.toNat]
  else if c.toNat < 0x800 then [0xC0 + c.toNat / 64, 0x80 + c.toNat % 64]
  else if c.toNat < 0x10000 then
    [0xE0 + c.toNat / 4096, 0x80 + c.toNat / 64 % 64, 0x80 + c.toNat % 64]
  else
    [0xF0 + c.toNat / 262144, 0x80 + c.toNat / 4096 % 64,
     0x80 + c.toNat / 64 % 64, 0x80 + c.toNat % 64]

/-- UTF-8 encoding of a character sequence, as bytes. -/
def utf8Encode (l : List Char) : List Nat :=
  (l.map utf8EncodeChar).flatten

/-- UTF-8 decoding of a byte sequence: rejects truncated sequences, stray or
missing continuation bytes, overlong encodings, surrogate values and values
above U+10FFFF.  Each step consumes at least one byte, captured by the
explicit fuel that `utf8Decode` seeds with the input length. -/
def utf8DecodeF : Nat → List Nat → Option (List Char)
  | _, [] => some []
  | 0, _ :: _ => none
  | fuel + 1, b :: rest =>
    if b < 0x80 then (utf8DecodeF fuel rest).map (fun l => Char.ofNat b :: l)
    else if b < 0xC0 then none
    else if b < 0xE0 then
      match rest with
      | b1 :: rest2 =>
        if 0x80 ≤ b1 ∧ b1 < 0xC0 then
          if (b - 0xC0) * 64 + (b1 - 0x80) < 0x80 then none
          else (utf8DecodeF fuel rest2).map (fun l =>
            Char.ofNat ((b - 0xC0) * 64 + (b1 - 0x80)) :: l)
        else none
      | _ => none
    else if b < 0xF0 then
      match rest with
      | b1 :: b2 :: rest2 =>
        if (0x80 ≤ b1 ∧ b1 < 0xC0) ∧ (0x80 ≤ b2 ∧ b2 < 0xC0) then
          if (b - 0xE0) * 4096 + (b1 - 0x80) * 64 + (b2 - 0x80) < 0x800 ∨
             (0xD800 ≤ (b - 0xE0) * 4096 + (b1 - 0x80) * 64 + (b2 - 0x80) ∧
              (b - 0xE0) * 4096 + (b1 - 0x80) * 64 + (b2 - 0x80) < 0xE000) then none
          else (utf8DecodeF fuel rest2).map (fun l =>
            Char.ofNat ((b - 0xE0) * 4096 + (b1 - 0x80) * 64 + (b2 - 0x80)) :: l)
        else none
      | _ => none
    else if b < 0xF8 then
      match rest with
      | b1 :: b2 :: b3 :: rest2 =>
        if (0x80 ≤ b1 ∧ b1 < 0xC0) ∧ (0x80 ≤ b2 ∧ b2 < 0xC0) ∧ (0x80 ≤ b3 ∧ b3 < 0xC0) then
          if (b - 0xF0) * 262144 + (b1 - 0x80) * 4096 + (b2 - 0x80) * 64 + (b3 - 0x80) < 0x10000 ∨
             0x110000 ≤ (b - 0xF0) * 262144 + (b1 - 0x80) * 4096 + (b2 - 0x80) * 64 + (b3 - 0x80)
          then none
          else (utf8DecodeF fuel rest2).map (fun l =>
            Char.ofNat ((b - 0xF0) * 262144 + (b1 - 0x80) * 4096 +
              (b2 - 0x80) * 64 + (b3 - 0x80)) :: l)
        else none
      | _ => none
    else none

/-- The UTF-8 decoder at its natural fuel. -/
def utf8Decode (bs : List Nat) : Option (List Char) :=
  utf8DecodeF bs.length bs

/-! ## base64 (Go `base64.RawURLEncoding`: URL alphabet, no padding) -/

/-- The URL-safe base64 alphabet. -/
def b64Alphabet : List Char :=
  "ABCDEFGHIJKLMNOPQRSTUVWXYZabcdefghijklmnopqrstuvwxyz0123456789-_".toList

/-- The alphabet character for a six-bit value. -/
def b64Char (n : Nat) : Char := b64Alphabet.getD n 'A'

/-- The six-bit value of an alphabet character (`none` for characters outside
the alphabet, which make decoding fail). -/
def b64Val (c : Char) : Option Nat := b64Alphabet.findIdx? (· == c)

/-- Model of `base64.RawURLEncoding.EncodeString`: three input bytes become
four alphabet characters; a final remainder of one or two bytes becomes two
or three characters (no padding). -/
def b64Encode : List Nat → List Char
  | [] => []
  | [b0] => [b64Char (b0 / 4), b64Char (b0 % 4 * 16)]
  | [b0, b1] => [b64Char (b0 / 4), b64Char (b0 % 4 * 16 + b1 / 16), b64Char (b1 % 16 * 4)]
  | b0 :: b1 :: b2 :: rest =>
    b64Char (b0 / 4) :: b64Char (b0 % 4 * 16 + b1 / 16) ::
    b64Char (b1 % 16 * 4 + b2 / 64) :: b64Char (b2 % 64) :: b64Encode rest

/-- Model of `base64.RawURLEncoding.DecodeString`: four characters become
three bytes; a final remainder of two or three characters becomes one or two
bytes; a remainder of one character, or any character outside the alphabet,
is a decode error. -/
def b64Decode : List Char → Option (List Nat)
  | [] => some []
  | [_] => none
  | [c0, c1] => do
    let v0 ← b64Val c0
    let v1 ← b64Val c1
    some [v0 * 4 + v1 / 16]
  | [c0, c1, c2] => do
    let v0 ← b64Val c0
    let v1 ← b64Val c1
    let v2 ← b64Val c2
    some [v0 * 4 + v1 / 16, v1 % 16 * 16 + v2 / 4]
  | c0 :: c1 :: c2 :: c3 :: rest => do
    let v0 ← b64Val c0
    let v1 ← b64Val c1
    let v2 ← b64Val c2
    let v3 ← b64Val c3
    let bs ← b64Decode rest
    some ((v0 * 4 + v1 / 16) :: (v1 % 16 * 16 + v2 / 4) :: (v2 % 4 * 64 + v3) :: bs)

/-! ## The cursor codec (`pager.EncodeCursor` / `pager.DecodeCursor`) -/

/-- Model of `pager.EncodeCursor`:

    func EncodeCursor(c *Cursor) string {
        cj, _ := json.Marshal(c)
        return base64.RawURLEncoding.EncodeToString(cj)
    }

The marshal error is discarded; on failure `cj` is nil and the empty byte
sequence is encoded, yielding the empty token. -/
def EncodeCursor (c : Cursor) : String :=
  (b64Encode (utf8Encode ((marshalCursorChars c).getD []))).asString

/-- Model of `pager.DecodeCursor`:

    func DecodeCursor(s string) (*Cursor, error) {
        cj, err := base64.RawURLEncoding.DecodeString(s)
        if err != nil { return nil, err }
        c := &Cursor{}
        return c, json.Unmarshal(cj, c)
    }

`none` models the error return (from either stage). -/
def DecodeCursor (s : String) : Option Cursor := do
  let bs ← b64Decode s.toList
  let chars ← utf8Decode bs
  parseCursorChars chars

/-! ## Domain records (`internal/helpdesk`) -/

/-- Model of `helpdesk.Employee`. -/
structure Employee where
  ID : String
  DisplayName : String
  Position : String
  Department : String
  Branch : String
deriving DecidableEq, Repr

/-- Model of `helpdesk.Staff`. -/
structure Staff where
  ID : String
  DisplayName : String
  Position : String
  Department : String
  Branch : String
deriving DecidableEq, Repr

/-- Model of `helpdesk.Supporter`. -/
structure Supporter where
  DisplayName : String
  Position : String
deriving DecidableEq, Repr

/-- Model of `helpdesk.Ticket` (note: `ClosedDate` is a `time.Time`). -/
structure Ticket where
  ID : String
  Number : String
  Category : String
  Priority : String
  Status : String
  Title : String
  Description : String
  Employee : Employee
  Supporter : Supporter
  CreatedAt : GoTime
  ClosedDate : GoTime
deriving DecidableEq, Repr

/-- Model of `helpdesk.HelpDesk` (note: `ClosedDate` is a `string`). -/
structure HelpDesk where
  ID : String
  Number : String
  Category : String
  Priority : String
  Status : String
  Title : String
  Description : String
  Requester : Staff
  Supporter : Supporter
  CreatedAt : GoTime
  ClosedDate : String
deriving DecidableEq, Repr

/-! ## Predicate building (`ToSql` methods) -/

/-- One conjunct of the WHERE predicate, together with its bound value, as
assembled by the `ToSql` methods with the `squirrel` builder. -/
inductive Clause
  /-- `sq.Expr("status LIKE %?%", status)` -/
  | statusLike (status : String)
  /-- `sq.Eq{field: value}` -/
  | eqField (field value : String)
  /-- `sq.LtOrEq{"created_at": t}` -/
  | createdLe (t : GoTime)
  /-- `sq.GtOrEq{"created_at": t}` -/
  | createdGe (t : GoTime)
  /-- `sq.Expr("id < ?", cursorID)` -/
  | exprIdLt (cursorID : String)
  /-- `sq.Lt{"id": nextID}` -/
  | idLt (nextID : String)
deriving DecidableEq, Repr

/-- The predicate-building error: the only failing path of the `ToSql`
methods is a page token that fails to decode (`InvalidCursor` in the spec's
taxonomy). -/
inductive SqlError
  | invalidCursor
deriving DecidableEq, Repr

/-- Model of `helpdesk.TicketQuery`. -/
structure TicketQuery where
  ID : String
  Number : String
  Category : String
  Priority : String
  Status : String
  EmployeeID : String
  CreatedBefore : GoTime
  CreatedAfter : GoTime
  PageSize : Nat
  PageToken : String
deriving DecidableEq, Repr

/-- The clauses appended by `TicketQuery.ToSql` before the cursor clause, in
source order, each guarded by its field being non-empty/non-zero. -/
def TicketQuery.baseClauses (q : TicketQuery) : List Clause :=
  (if q.Status ≠ "" then [Clause.statusLike q.Status] else []) ++
  (if q.Priority ≠ "" then [Clause.eqField "priority" q.Priority] else []) ++
  (if q.Category ≠ "" then [Clause.eqField "category" q.Category] else []) ++
  (if q.Number ≠ "" then [Clause.eqField "number" q.Number] else []) ++
  (if q.EmployeeID ≠ "" then [Clause.eqField "creator_number" q.EmployeeID] else []) ++
  (if ¬ q.CreatedBefore.IsZero then [Clause.createdLe q.CreatedBefore] else []) ++
  (if ¬ q.CreatedAfter.IsZero then [Clause.createdGe q.CreatedAfter] else [])

/-- Model of `TicketQuery.ToSql`: the base clauses, then, when a page token
is present, either the decoded cursor's `id < ?` clause or the decode
error. -/
def TicketQuery.ToSql (q : TicketQuery) : Except SqlError (List Clause) :=
  if q.PageToken ≠ "" then
    match DecodeCursor q.PageToken with
    | none => Except.error SqlError.invalidCursor
    | some cursor => Except.ok (q.baseClauses ++ [Clause.exprIdLt cursor.ID])
  else Except.ok q.baseClauses

/-- Model of `helpdesk.HelpDeskQuery`. -/
structure HelpDeskQuery where
  ID : String
  Number : String
  Category : String
  Priority : String
  Status : String
  RequesterID : String
  CreatedBefore : GoTime
  CreatedAfter : GoTime
  PageSize : Nat
  PageToken : String
deriving DecidableEq, Repr

/-- The clauses appended by `HelpDeskQuery.ToSql` before the cursor clause. -/
def HelpDeskQuery.baseClauses (q : HelpDeskQuery) : List Clause :=
  (if q.Status ≠ "" then [Clause.statusLike q.Status] else []) ++
  (if q.Priority ≠ "" then [Clause.eqField "priority" q.Priority] else []) ++
  (if q.Category ≠ "" then [Clause.eqField "category" q.Category] else []) ++
  (if q.Number ≠ "" then [Clause.eqField "number" q.Number] else []) ++
  (if q.RequesterID ≠ "" then [Clause.eqField "creator_number" q.RequesterID] else []) ++
  (if ¬ q.CreatedBefore.IsZero then [Clause.createdLe q.CreatedBefore] else []) ++
  (if ¬ q.CreatedAfter.IsZero then [Clause.createdGe q.CreatedAfter] else [])

/-- Model of `HelpDeskQuery.ToSql`. -/
def HelpDeskQuery.ToSql (q : HelpDeskQuery) : Except SqlError (List Clause) :=
  if q.PageToken ≠ "" then
    match DecodeCursor q.PageToken with
    | none => Except.error SqlError.invalidCursor
    | some cursor => Except.ok (q.baseClauses ++ [Clause.exprIdLt cursor.ID])
  else Except.ok q.baseClauses

/-- Model of `helpdesk.BatchGetTicketsQuery` (the unexported `nextID` is the
internal batch cursor set by `batchGetTickets`). -/
structure BatchGetTicketsQuery where
  ID : String
  Number : String
  Category : String
  Priority : String
  Status : String
  RequesterID : String
  CreatedBefore : GoTime
  CreatedAfter : GoTime
  nextID : String
deriving DecidableEq, Repr

/-- Model of `BatchGetTicketsQuery.ToSql`: like the others, but the internal
cursor is a plain `sq.Lt{"id": nextID}` clause and there is no failing
path. -/
def BatchGetTicketsQuery.ToSql (q : BatchGetTicketsQuery) : List Clause :=
  (if q.Status ≠ "" then [Clause.statusLike q.Status] else []) ++
  (if q.Priority ≠ "" then [Clause.eqField "priority" q.Priority] else []) ++
  (if q.Category ≠ "" then [Clause.eqField "category" q.Category] else []) ++
  (if q.Number ≠ "" then [Clause.eqField "number" q.Number] else []) ++
  (if q.RequesterID ≠ "" then [Clause.eqField "creator_number" q.RequesterID] else []) ++
  (if ¬ q.CreatedBefore.IsZero then [Clause.createdLe q.CreatedBefore] else []) ++
  (if ¬ q.CreatedAfter.IsZero then [Clause.createdGe q.CreatedAfter] else []) ++
  (if q.nextID ≠ "" then [Clause.idLt q.nextID] else [])

/-! ## Row scanning (`listTickets` / `listHelpDesks` / `batchGetTickets`) -/

/-- One raw row of `v_hepldesk_ticket_report` as scanned by `listTickets` and
`batchGetTickets` (the `closed_date` column is scanned into a `time.Time`). -/
structure TicketRow where
  id : String
  number : String
  category : String
  priority : String
  status : String
  title : String
  description : String
  creatorNumber : String
  creatorDisplayName : String
  position : String
  department : String
  branch : String
  supporterName : String
  supporterPosition : String
  createdAt : GoTime
  closedDate : GoTime
deriving DecidableEq, Repr

/-- One raw row of `v_helpdesk_report` as scanned by `listHelpDesks` (the
`closed_date` column is scanned into a `string`). -/
structure HelpDeskRow where
  id : String
  number : String
  category : String
  priority : String
  status : String
  title : String
  description : String
  creatorNumber : String
  creatorDisplayName : String
  position : String
  department : String
  branch : String
  supporterName : String
  supporterPosition : String
  createdAt : GoTime
  closedDate : String
deriving DecidableEq, Repr

/-- The record built from one scanned row inside the `listTickets` (and
`batchGetTickets`) row loop: the raw status is normalized; every other
column, including the closed date, is copied unchanged. -/
def scanTicketRow (r : TicketRow) : Ticket :=
  { ID := r.id
    Number := r.number
    Category := r.category
    Priority := r.priority
    Status := mapTicketStatus r.status
    Title := r.title
    Description := r.description
    Employee := ⟨r.creatorNumber, r.creatorDisplayName, r.position, r.department, r.branch⟩
    Supporter := ⟨r.supporterName, r.supporterPosition⟩
    CreatedAt := r.createdAt
    ClosedDate := r.closedDate }

/-- The record built from one scanned row inside the `listHelpDesks` row
loop: the raw status is normalized, and the closed date is kept only when it
differs from the `"1900-01-01"` sentinel (otherwise the field stays at its
zero value, the empty string). -/
def scanHelpDeskRow (r : HelpDeskRow) : HelpDesk :=
  { ID := r.id
    Number := r.number
    Category := r.category
    Priority := r.priority
    Status := mapStatus r.status
    Title := r.title
    Description := r.description
    Requester := ⟨r.creatorNumber, r.creatorDisplayName, r.position, r.department, r.branch⟩
    Supporter := ⟨r.supporterName, r.supporterPosition⟩
    CreatedAt := r.createdAt
    ClosedDate := if r.closedDate ≠ "1900-01-01" then r.closedDate else "" }

/-- The outcome of one `rows.Scan` call inside a row loop. -/
inductive ScanAttempt (ρ : Type)
  | ok (r : ρ)
  | errNoRows
  | errOther (msg : String)
deriving DecidableEq, Repr

/-- The error surface of the page fetchers. -/
inductive FetchError
  | notFound
  | queryError (msg : String)
deriving DecidableEq, Repr

/-- The row loop of `listTickets`: each scanned row is mapped and appended;
a scan error equal to `sql.ErrNoRows` aborts with `ErrTicketNotFound`; any
other scan error aborts with a wrapped query error. -/
def listTicketsRowLoop : List (ScanAttempt TicketRow) → Except FetchError (List Ticket)
  | [] => Except.ok []
  | ScanAttempt.ok r :: rest => (listTicketsRowLoop rest).map (scanTicketRow r :: ·)
  | ScanAttempt.errNoRows :: _ => Except.error FetchError.notFound
  | ScanAttempt.errOther m :: _ =>
    Except.error (FetchError.queryError ("failed to scan row: " ++ m))

/-- Model of the fetch half of `listTickets`: the row loop followed by the
final `rows.Err()` check. -/
def listTicketsFetch (attempts : List (ScanAttempt TicketRow)) (iterErr : Option String) :
    Except FetchError (List Ticket) :=
  match listTicketsRowLoop attempts with
  | Except.error e => Except.error e
  | Except.ok tickets =>
    match iterErr with
    | some m => Except.error (FetchError.queryError ("failed to iterate rows: " ++ m))
    | none => Except.ok tickets

/-- The row loop of `batchGetTickets` (textually the same loop as
`listTickets`). -/
def batchGetTicketsRowLoop : List (ScanAttempt TicketRow) → Except FetchError (List Ticket)
  | [] => Except.ok []
  | ScanAttempt.ok r :: rest => (batchGetTicketsRowLoop rest).map (scanTicketRow r :: ·)
  | ScanAttempt.errNoRows :: _ => Except.error FetchError.notFound
  | ScanAttempt.errOther m :: _ =>
    Except.error (FetchError.queryError ("failed to scan row: " ++ m))

/-- Model of the fetch half of `batchGetTickets`. -/
def batchGetTicketsFetch (attempts : List (ScanAttempt TicketRow)) (iterErr : Option String) :
    Except FetchError (List Ticket) :=
  match batchGetTicketsRowLoop attempts with
  | Except.error e => Except.error e
  | Except.ok tickets =>
    match iterErr with
    | some m => Except.error (FetchError.queryError ("failed to iterate rows: " ++ m))
    | none => Except.ok tickets

/-! ## List services (`ListTickets` / `ListHelpDesks`) -/

/-- Model of `helpdesk.ListTicketsResult`. -/
structure ListTicketsResult where
  Tickets : List Ticket
  NextPageToken : String
deriving DecidableEq, Repr

/-- Model of `helpdesk.ListHelpDesksResult`. -/
structure ListHelpDesksResult where
  HelpDesks : List HelpDesk
  NextPageToken : String
deriving DecidableEq, Repr

/-- Model of `Service.ListTickets` after a successful fetch, parameterized by
the ticket list the fetch returned:

    var pageToken string
    if l := len(tickets); l > 0 && l == int(pager.Size(in.PageSize)) {
        last := tickets[l-1]
        pageToken = pager.EncodeCursor(&pager.Cursor{ID: last.ID, Time: last.CreatedAt})
    }
-/
def ListTickets (tickets : List Ticket) (q : TicketQuery) : ListTicketsResult :=
  let pageToken :=
    if tickets.length > 0 ∧ tickets.length = Size q.PageSize then
      match tickets.getLast? with
      | some last => EncodeCursor ⟨last.ID, last.CreatedAt⟩
      | none => ""
    else ""
  ⟨tickets, pageToken⟩

/-- Model of `Service.ListHelpDesks` after a successful fetch (same token
logic over the helpdesk records). -/
def ListHelpDesks (helpDesks : List HelpDesk) (q : HelpDeskQuery) : ListHelpDesksResult :=
  let pageToken :=
    if helpDesks.length > 0 ∧ helpDesks.length = Size q.PageSize then
      match helpDesks.getLast? with
      | some last => EncodeCursor ⟨last.ID, last.CreatedAt⟩
      | none => ""
    else ""
  ⟨helpDesks, pageToken⟩

/-! ## Aggregate report builders -/

/-- Model of `helpdesk.CategoryReport` (counts are `int64` in Go; they are
row counts, so `Nat` here). -/
structure CategoryReport where
  Name : String
  InProgress : Nat
  Resolved : Nat
  Blank : Nat
  Total : Nat
deriving DecidableEq, Repr

/-- Model of `helpdesk.SupporterReport`. -/
structure SupporterReport where
  Name : String
  InProgress : Nat
  Resolved : Nat
  Blank : Nat
  Total : Nat
deriving DecidableEq, Repr

/-- Model of `helpdesk.PriorityReport`. -/
structure PriorityReport where
  Name : String
  High : Nat
  Medium : Nat
  Low : Nat
  Blank : Nat
  Total : Nat
deriving DecidableEq, Repr

/-- Model of `helpdesk.ReportQuery`. -/
structure ReportQuery where
  CreatedBefore : GoTime
  CreatedAfter : GoTime
deriving DecidableEq, Repr

/-- Lexicographic order on `Nat` lists (instant order on broken-down UTC
times, used to evaluate the `created_at` range clauses). -/
def natListLeb : List Nat → List Nat → Bool
  | [], _ => true
  | _ :: _, [] => false
  | a :: as, b :: bs =>
    if a < b then true
    else if a = b then natListLeb as bs
    else false

/-- Instant order on broken-down UTC times. -/
def timeLeb (a b : GoTime) : Bool :=
  natListLeb [a.year, a.month, a.day, a.hour, a.minute, a.second, a.nanosecond]
    [b.year, b.month, b.day, b.hour, b.minute, b.second, b.nanosecond]

/-- Evaluation of `ReportQuery.ToSql` on one view row: `created_at <=
CreatedBefore` when set, `created_at >= CreatedAfter` when set. -/
def matchesReportRange (q : ReportQuery) (t : GoTime) : Bool :=
  (decide q.CreatedBefore.IsZero || timeLeb t q.CreatedBefore) &&
  (decide q.CreatedAfter.IsZero || timeLeb q.CreatedAfter t)

/-- One row of `v_hepldesk_ticket_report` as selected by the report CTEs. -/
structure ReportRow where
  category : String
  supporterName : String
  priority : String
  status : String
  createdAt : GoTime
deriving DecidableEq, Repr

/-- The distinct values of a grouping key among the filtered rows, sorted
ascending (the `GROUP BY` + `ORDER BY key ASC` of the report queries). -/
def reportKeys (key : ReportRow → String) (rows : List ReportRow) : List String :=
  List.insertionSort strLe ((rows.map key).dedup)

/-- Model of `listPriorityReports` over the store rows: filter by the
creation-time range, group by `category` ordered ascending, count the
`HIGHT` / `MEDIUEM` / `LOW` buckets (the misspellings are the source's) and
the complement bucket, count all rows of the group, then substitute
`"(Blank)"` for an empty scanned name. -/
def listPriorityReports (rows : List ReportRow) (q : ReportQuery) : List PriorityReport :=
  let filtered := rows.filter (fun r => matchesReportRange q r.createdAt)
  (reportKeys (fun r => r.category) filtered).map (fun g =>
    let grp := filtered.filter (fun r => r.category == g)
    let s : PriorityReport :=
      { Name := g
        High := (grp.filter (fun r => r.priority == "HIGHT")).length
        Medium := (grp.filter (fun r => r.priority == "MEDIUEM")).length
        Low := (grp.filter (fun r => r.priority == "LOW")).length
        Blank := (grp.filter (fun r =>
          ¬ (r.priority = "HIGHT" ∨ r.priority = "MEDIUEM" ∨ r.priority = "LOW"))).length
        Total := grp.length }
    if s.Name = "" then { s with Name := "(Blank)" } else s)

/-- Model of `listCategoryReports`: group by `category`, bucket by the raw
in-progress / resolved status strings and their complement. -/
def listCategoryReports (rows : List ReportRow) (q : ReportQuery) : List CategoryReport :=
  let filtered := rows.filter (fun r => matchesReportRange q r.createdAt)
  (reportKeys (fun r => r.category) filtered).map (fun g =>
    let grp := filtered.filter (fun r => r.category == g)
    let s : CategoryReport :=
      { Name := g
        InProgress := (grp.filter (fun r =>
          r.status == "FINISHED,MANAGER(APPROVE),IT(IN PROGRESS)")).length
        Resolved := (grp.filter (fun r =>
          r.status == "FINISHED,MANAGER(APPROVE),IT(RESOLVE)")).length
        Blank := (grp.filter (fun r =>
          ¬ (r.status = "FINISHED,MANAGER(APPROVE),IT(IN PROGRESS)" ∨
             r.status = "FINISHED,MANAGER(APPROVE),IT(RESOLVE)"))).length
        Total := grp.length }
    if s.Name = "" then { s with Name := "(Blank)" } else s)

/-- Model of `listSupporterReports`: group by `supporter_name`, same buckets
as the category report. -/
def listSupporterReports (rows : List ReportRow) (q : ReportQuery) : List SupporterReport :=
  let filtered := rows.filter (fun r => matchesReportRange q r.createdAt)
  (reportKeys (fun r => r.supporterName) filtered).map (fun g =>
    let grp := filtered.filter (fun r => r.supporterName == g)
    let s : SupporterReport :=
      { Name := g
        InProgress := (grp.filter (fun r =>
          r.status == "FINISHED,MANAGER(APPROVE),IT(IN PROGRESS)")).length
        Resolved := (grp.filter (fun r =>
          r.status == "FINISHED,MANAGER(APPROVE),IT(RESOLVE)")).length
        Blank := (grp.filter (fun r =>
          ¬ (r.status = "FINISHED,MANAGER(APPROVE),IT(IN PROGRESS)" ∨
             r.status = "FINISHED,MANAGER(APPROVE),IT(RESOLVE)"))).length
        Total := grp.length }
    if s.Name = "" then { s with Name := "(Blank)" } else s)

/-! ## The export batch loop (`GenExcel`) -/

/-- Evaluation of the `batchGetTickets` query against the backing store.
`store` is the list of (already scanned) tickets of
`v_hepldesk_ticket_report` matching the request's filter clauses, in the
order produced by `ORDER BY id DESC`; the query takes the `TOP batchSize`
rows of those satisfying the internal-cursor clause `id < nextID` (absent
when `nextID` is empty). -/
def batchGetTicketsFromStore (store : List Ticket) (batchSize : Nat) (nextID : String) :
    List Ticket :=
  (if nextID = "" then store else store.filter (fun t => strLtb t.ID nextID)).take batchSize

/-- The batch loop of `GenExcel`, with explicit fuel (the Go loop is
unbounded; its termination on this store model is part of what is proved).
Each iteration fetches a batch; an empty batch ends the loop; otherwise the
batch is dispatched to `genTicketsToExcel` at the current running row
offset, the internal cursor advances to the batch's last ticket identifier
and the offset advances by the batch length. Returns the dispatched
(start-row, batch) pairs in dispatch order. -/
def genExcelLoop (store : List Ticket) (batchSize : Nat) :
    Nat → String → Nat → List (Nat × List Ticket)
  | 0, _, _ => []
  | fuel + 1, nextID, startRow =>
    match (batchGetTicketsFromStore store batchSize nextID).getLast? with
    | none => []
    | some last =>
      (startRow, batchGetTicketsFromStore store batchSize nextID) ::
        genExcelLoop store batchSize fuel last.ID
          (startRow + (batchGetTicketsFromStore store batchSize nextID).length)

/-- The batches dispatched by `GenExcel` for a given store: batch size 200,
initial internal cursor empty, detail rows starting at row 2 (row 1 is the
header). The fuel `store.length + 1` is enough for the loop to reach its
empty-batch exit whenever it terminates at all. -/
def genExcelPages (store : List Ticket) : List (Nat × List Ticket) :=
  genExcelLoop store 200 (store.length + 1) "" 2

/-- Model of `genTicketsToExcel`: one dispatched batch writes ticket `i` of
the batch into detail-sheet row `startRow + i`. -/
def genTicketsToExcelRows (startRow : Nat) (tickets : List Ticket) : List (Nat × Ticket) :=
  tickets.enumFrom startRow

/-- All detail-sheet writes performed by the export of a given store, as
(row, ticket) pairs in dispatch order. -/
def exportDetailWrites (store : List Ticket) : List (Nat × Ticket) :=
  ((genExcelPages store).map (fun p => genTicketsToExcelRows p.1 p.2)).flatten

/-- The Closed Date cell written by `genTicketsToExcel` for one ticket:

    var closedDate string
    if s.ClosedDate.Format("2006-01-02") != "1900-01-01" {
        closedDate = s.ClosedDate.Format("02/01/2006")
    }
-/
def closedDateCell (s : Ticket) : String :=
  if formatYMD s.ClosedDate ≠ "1900-01-01" then formatDMY s.ClosedDate else ""

/-! ## Order instances for the string comparison -/

instance : IsTrans String strLe := by
  constructor
  have key : ∀ as bs cs : List Char, charListLtb as bs = false → charListLtb bs cs = false →
      charListLtb as cs = false := by
    intro as
    induction as with
    | nil =>
      intro bs cs h1 h2
      cases bs with
      | nil =>
        cases cs with
        | nil => rfl
        | cons c cs => simp [charListLtb] at h2
      | cons b bs => simp [charListLtb] at h1
    | cons a as ih =>
      intro bs cs h1 h2
      cases bs with
      | nil =>
        cases cs with
        | nil => rfl
        | cons c cs => simp [charListLtb] at h2
      | cons b bs =>
        cases cs with
        | nil => rfl
        | cons c cs =>
          simp only [charListLtb] at h1 h2 ⊢
          split_ifs at h1 h2 ⊢ with g1 g2 g3 g4 g5 g6 <;>
            first
            | rfl
            | omega
            | (exact ih bs cs h1 h2)
  intro a b c h1 h2
  exact key _ _ _ h2 h1

instance : IsTotal String strLe := by
  constructor
  have key : ∀ as bs : List Char, charListLtb as bs = true → charListLtb bs as = false := by
    intro as
    induction as with
    | nil =>
      intro bs h
      cases bs with
      | nil => simp [charListLtb] at h
      | cons b bs => rfl
    | cons a as ih =>
      intro bs h
      cases bs with
      | nil => simp [charListLtb] at h
      | cons b bs =>
        simp only [charListLtb] at h ⊢
        split_ifs at h ⊢ with g1 g2 g3 g4 <;>
          first
          | rfl
          | omega
          | (exact ih bs h)
  intro a b
  unfold strLe strLtb
  rcases hc : charListLtb b.toList a.toList with _ | _
  · exact Or.inl rfl
  · exact Or.inr (key _ _ hc)

/-! # Theorems -/

/-! ## Claim C7: page size resolution -/

/-- Claim C7, counterexample to the claim as stated: the claim asserts
`resolve(-5) = 20`, but `pager.Size` takes a `uint64`, where the integer -5
is not representable; its 64-bit two's-complement image `2^64 - 5` resolves
to 200 (through the `> 200` clamp), not 20. -/
theorem C7_counterexample_negative_input :
    Size (2 ^ 64 - 5) = 200 ∧ (2 ^ 64 - 5 : Int) = (-5 : Int) % 2 ^ 64 ∧ (200 : Nat) ≠ 20 := by
  refine ⟨?_, by decide, by decide⟩
  norm_num [Size]

/-- Claim C7 (amended): `pager.Size` takes an unsigned 64-bit size, so
negative inputs do not arise; on its actual domain it satisfies
`resolve(n) = 20` if `n = 0` (the only way `n ≤ 0` holds for an unsigned
value), `200` if `n > 200`, otherwise `n`; in particular `resolve(0) = 20`,
`resolve(500) = 200`, `resolve(50) = 50`; and it is idempotent. -/
theorem C7_size_resolution :
    (∀ n : Nat, Size (Size n) = Size n) ∧
    Size 0 = 20 ∧ Size 500 = 200 ∧ Size 50 = 50 ∧
    (∀ n : Nat, n = 0 → Size n = 20) ∧
    (∀ n : Nat, 200 < n → Size n = 200) ∧
    (∀ n : Nat, 0 < n → n ≤ 200 → Size n = n) := by
  refine ⟨?_, by decide, by decide, by decide, ?_, ?_, ?_⟩ <;>
    intro n <;> unfold Size <;> split_ifs <;> omega

/-- Claim C7, witness: the amended theorem applied at the concrete inputs
7, 300 and 0. -/
theorem C7_size_resolution_witness :
    Size 7 = 7 ∧ Size 300 = 200 ∧ Size 0 = 20 ∧ Size (Size 123) = Size 123 :=
  ⟨C7_size_resolution.2.2.2.2.2.2 7 (by norm_num) (by norm_num),
   C7_size_resolution.2.2.2.2.2.1 300 (by norm_num),
   C7_size_resolution.2.2.2.2.1 0 rfl,
   C7_size_resolution.1 123⟩

/-! ## Claim C4: status normalization -/

/-- Claim C4: status normalization is total — every raw status string
outside the switch's listed cases normalizes to `PENDING` (for both copies
of the mapping), and each listed raw string maps to its documented value
(the switch has 8 cases covering the 9 listed strings; two raw strings
share the PENDING case). -/
theorem C4_status_normalization_total :
    (∀ s : String, s ∉ knownRawStatuses →
      mapTicketStatus s = "PENDING" ∧ mapStatus s = "PENDING") ∧
    mapTicketStatus "PENDING" = "PENDING" ∧
    mapTicketStatus "FINISHED,MANAGER(APPROVE),IT(PENDING)" = "PENDING" ∧
    mapTicketStatus "FINISHED,MANAGER(APPROVE),IT(CANCEL)" = "CANCELED" ∧
    mapTicketStatus "FINISHED,MANAGER(APPROVE),IT(IN PROGRESS)" = "IN_PROGRESS" ∧
    mapTicketStatus "REQUEST" = "REQUEST" ∧
    mapTicketStatus "FINISHED,MANAGER(APPROVE),IT(RESOLVE)" = "RESOLVED" ∧
    mapTicketStatus "FINISHED,MANAGER(APPROVE),IT(SENDING)" = "SENDING" ∧
    mapTicketStatus "FINISHED,MANAGER(APPROVE),IT(REPENDING)" = "RE_PENDING" ∧
    mapTicketStatus "REJECT,MANAGER(REJECT)" = "REJECTED" ∧
    (∀ s : String, mapStatus s = mapTicketStatus s) := by
  refine ⟨?_, by decide, by decide, by decide, by decide, by decide, by decide, by decide,
    by decide, by decide, ?_⟩
  · intro s hs
    simp only [knownRawStatuses, List.mem_cons, List.not_mem_nil, or_false] at hs
    push_neg at hs
    obtain ⟨h1, h2, h3, h4, h5, h6, h7, h8, h9⟩ := hs
    refine ⟨?_, ?_⟩ <;>
      simp [mapTicketStatus, mapStatus, h1, h2, h3, h4, h5, h6, h7, h8, h9]
  · intro s
    unfold mapStatus mapTicketStatus
    rfl

/-- Claim C4, witness: the totality part applied at the concrete raw string
`"SOMETHING_UNLISTED"`. -/
theorem C4_status_normalization_total_witness :
    mapTicketStatus "SOMETHING_UNLISTED" = "PENDING" ∧
    mapStatus "SOMETHING_UNLISTED" = "PENDING" :=
  C4_status_normalization_total.1 "SOMETHING_UNLISTED" (by decide)

/-! ## Helper lemmas: characters and digits -/

theorem charOfNat_toNat (c : Char) : Char.ofNat c.toNat = c := by
  have h : c.toNat.isValidChar := c.valid
  rw [Char.ofNat, dif_pos h]
  rcases c with ⟨⟨⟨n, hn⟩⟩, hv⟩
  rfl

theorem asString_toList (s : String) : s.toList.asString = s := by
  cases s
  rfl

theorem toList_asString (l : List Char) : l.asString.toList = l := rfl

theorem digitChar_isDigit (m : Nat) : (digitChar m).isDigit = true := by
  rcases m with _ | _ | _ | _ | _ | _ | _ | _ | _ | m <;> rfl

theorem digitChar_toNat (m : Nat) (h : m < 10) : (digitChar m).toNat = 48 + m := by
  interval_cases m <;> rfl

theorem padNum_length (w n : Nat) : (padNum w n).length = w := by
  induction w generalizing n with
  | zero => rfl
  | succ w ih => simp [padNum, ih]

theorem padNum_mem_isDigit (w n : Nat) (c : Char) (hc : c ∈ padNum w n) : c.isDigit = true := by
  induction w generalizing n with
  | zero => simp [padNum] at hc
  | succ w ih =>
    simp only [padNum, List.mem_append, List.mem_singleton] at hc
    rcases hc with hc | hc
    · exact ih _ hc
    · rw [hc]
      exact digitChar_isDigit _

theorem natOfDigits_from (a : Nat) (ds : List Char) :
    ds.foldl (fun acc c => acc * 10 + (c.toNat - 48)) a =
    a * 10 ^ ds.length + natOfDigits ds := by
  induction ds generalizing a with
  | nil => simp [natOfDigits]
  | cons d ds ih =>
    simp only [List.foldl_cons, List.length_cons, natOfDigits]
    rw [ih (a * 10 + (d.toNat - 48)), ih (0 * 10 + (d.toNat - 48))]
    ring

theorem natOfDigits_append (xs ys : List Char) :
    natOfDigits (xs ++ ys) = natOfDigits xs * 10 ^ ys.length + natOfDigits ys := by
  unfold natOfDigits
  rw [List.foldl_append, natOfDigits_from]
  rfl

theorem natOfDigits_padNum (w n : Nat) (h : n < 10 ^ w) : natOfDigits (padNum w n) = n := by
  induction w generalizing n with
  | zero =>
    simp [padNum, natOfDigits]
    omega
  | succ w ih =>
    have hdiv : n / 10 < 10 ^ w := by
      rw [pow_succ] at h
      omega
    have hd : (digitChar (n % 10)).toNat = 48 + n % 10 :=
      digitChar_toNat _ (Nat.mod_lt _ (by norm_num))
    unfold padNum
    rw [natOfDigits_append, ih _ hdiv]
    simp [natOfDigits, hd]
    omega

theorem natOfDigits_replicate_zero (k : Nat) : natOfDigits (List.replicate k '0') = 0 := by
  induction k with
  | zero => rfl
  | succ k ih =>
    rw [List.replicate_succ]
    unfold natOfDigits at ih ⊢
    simpa using ih

/-! ## Helper lemmas: fractional seconds and fixed-width fields -/

theorem trimZeros_decomp (ds : List Char) :
    ∃ k, ds = trimZeros ds ++ List.replicate k '0' ∧ (trimZeros ds).length + k = ds.length := by
  unfold trimZeros
  refine ⟨(ds.reverse.takeWhile (· == '0')).length, ?_, ?_⟩
  · have hrep : ds.reverse.takeWhile (· == '0') =
        List.replicate (ds.reverse.takeWhile (· == '0')).length '0' := by
      rw [List.eq_replicate_length]
      intro b hb
      have := List.mem_takeWhile_imp hb
      simpa using this
    conv_lhs => rw [← List.reverse_reverse ds]
    conv_lhs => rw [← List.takeWhile_append_dropWhile (p := (· == '0')) (l := ds.reverse)]
    rw [List.reverse_append, hrep, List.reverse_replicate]
    simp
  · have h := congrArg List.length
      (List.takeWhile_append_dropWhile (p := (· == '0')) (l := ds.reverse))
    simp only [List.length_append, List.length_reverse] at h ⊢
    omega

theorem trimZeros_mem (ds : List Char) (c : Char) (hc : c ∈ trimZeros ds) : c ∈ ds := by
  unfold trimZeros at hc
  rw [List.mem_reverse] at hc
  have := (List.dropWhile_sublist (· == '0')).mem hc
  rwa [List.mem_reverse] at this

theorem natOfDigits_trimZeros_padNum (n : Nat) (h : n < 10 ^ 9) :
    natOfDigits (trimZeros (padNum 9 n)) *
      10 ^ (9 - (trimZeros (padNum 9 n)).length) = n ∧
    (trimZeros (padNum 9 n)).length ≤ 9 := by
  obtain ⟨k, hds, hlen⟩ := trimZeros_decomp (padNum 9 n)
  rw [padNum_length] at hlen
  have hval : natOfDigits (padNum 9 n) = n := natOfDigits_padNum 9 n h
  rw [hds, natOfDigits_append, natOfDigits_replicate_zero, List.length_replicate] at hval
  constructor
  · rw [show 9 - (trimZeros (padNum 9 n)).length = k by omega]
    omega
  · omega

theorem trimZeros_padNum_ne_nil (n : Nat) (h : n < 10 ^ 9) (h0 : n ≠ 0) :
    trimZeros (padNum 9 n) ≠ [] := by
  intro heq
  obtain ⟨k, hds, hlen⟩ := trimZeros_decomp (padNum 9 n)
  rw [heq] at hds hlen
  have hval : natOfDigits (padNum 9 n) = n := natOfDigits_padNum 9 n h
  rw [hds] at hval
  simp only [List.nil_append, natOfDigits_replicate_zero] at hval
  exact h0 hval.symm

theorem takeWhile_append_stop (p : Char → Bool) (l cs : List Char) (c : Char)
    (hl : ∀ a ∈ l, p a = true) (hc : p c = false) :
    (l ++ c :: cs).takeWhile p = l := by
  induction l with
  | nil => simp [List.takeWhile_cons, hc]
  | cons a l ih =>
    simp only [List.cons_append, List.takeWhile_cons, hl a (List.mem_cons_self a l), if_pos]
    rw [ih (fun x hx => hl x (List.mem_cons_of_mem _ hx))]

theorem parseFraction_fracPart (n : Nat) (h : n < 1000000000) (rest : List Char) :
    parseFraction (fracPart n ++ 'Z' :: rest) = some (n, 'Z' :: rest) := by
  unfold fracPart
  by_cases h0 : n = 0
  · subst h0
    simp [parseFraction]
  · rw [if_neg h0]
    have h9 : n < 10 ^ 9 := by norm_num; omega
    have htw : ((trimZeros (padNum 9 n) ++ 'Z' :: rest).takeWhile Char.isDigit) =
        trimZeros (padNum 9 n) := by
      refine takeWhile_append_stop _ _ _ _ (fun a ha => ?_) (by decide)
      exact padNum_mem_isDigit 9 n a (trimZeros_mem _ _ ha)
    obtain ⟨hval, hle⟩ := natOfDigits_trimZeros_padNum n h9
    have hne : trimZeros (padNum 9 n) ≠ [] := trimZeros_padNum_ne_nil n h9 h0
    have hpos : 1 ≤ (trimZeros (padNum 9 n)).length := by
      cases hl : trimZeros (padNum 9 n) with
      | nil => exact absurd hl hne
      | cons a l => simp
    have hcond : 1 ≤ (trimZeros (padNum 9 n)).length ∧ (trimZeros (padNum 9 n)).length ≤ 9 :=
      ⟨hpos, hle⟩
    simp only [List.cons_append, parseFraction, if_pos rfl, htw]
    rw [if_pos hcond, List.drop_left' rfl, hval]
    simp

theorem expectChar_cons (c : Char) (rest : List Char) : expectChar c (c :: rest) = some rest := by
  simp [expectChar]

theorem readFixed_padNum (w lo hi n : Nat) (rest : List Char)
    (hw : n < 10 ^ w) (hlo : lo ≤ n) (hhi : n ≤ hi) :
    readFixed w lo hi (padNum w n ++ rest) = some (n, rest) := by
  unfold readFixed
  have htake : (padNum w n ++ rest).take w = padNum w n := List.take_left' (padNum_length w n)
  have hdrop : (padNum w n ++ rest).drop w = rest := List.drop_left' (padNum_length w n)
  rw [htake, hdrop]
  rw [if_pos ⟨padNum_length w n, List.all_eq_true.mpr (fun c hc => padNum_mem_isDigit w n c hc)⟩]
  rw [natOfDigits_padNum w n hw, if_pos ⟨hlo, hhi⟩]
theorem daysInMonth_le_31 (y m : Nat) : daysInMonth y m ≤ 31 := by
  unfold daysInMonth
  split_ifs <;> omega

theorem parseRFC3339_format (t : GoTime) (h : t.Valid) :
    parseRFC3339 (formatRFC3339Nano t) = some (t, []) := by
  obtain ⟨hy, hm1, hm2, hd1, hd2, hh, hmi, hs, hns⟩ := h
  have hd31 : t.day ≤ 31 := le_trans hd2 (daysInMonth_le_31 _ _)
  unfold formatRFC3339Nano parseRFC3339
  rw [readFixed_padNum 4 0 9999 t.year _ (by omega) (by omega) hy]
  simp only [Option.bind_eq_bind, Option.some_bind]
  rw [expectChar_cons]
  simp only [Option.some_bind]
  rw [readFixed_padNum 2 1 12 t.month _ (by omega) hm1 hm2]
  simp only [Option.some_bind]
  rw [expectChar_cons]
  simp only [Option.some_bind]
  rw [readFixed_padNum 2 1 31 t.day _ (by omega) hd1 hd31]
  simp only [Option.some_bind]
  rw [if_neg (by omega : ¬ (t.day > daysInMonth t.year t.month))]
  rw [expectChar_cons]
  simp only [Option.some_bind]
  rw [readFixed_padNum 2 0 23 t.hour _ (by omega) (by omega) hh]
  simp only [Option.some_bind]
  rw [expectChar_cons]
  simp only [Option.some_bind]
  rw [readFixed_padNum 2 0 59 t.minute _ (by omega) (by omega) hmi]
  simp only [Option.some_bind]
  rw [expectChar_cons]
  simp only [Option.some_bind]
  rw [List.append_assoc]
  rw [readFixed_padNum 2 0 59 t.second _ (by omega) (by omega) hs]
  simp only [Option.some_bind]
  rw [show fracPart t.nanosecond ++ ['Z'] = fracPart t.nanosecond ++ 'Z' :: [] from rfl]
  rw [parseFraction_fracPart t.nanosecond hns]
  simp only [Option.some_bind]
  rw [expectChar_cons]
  simp only [Option.some_bind]

/-! ## Helper lemmas: JSON string escaping round trip -/

theorem hexVal_hexChar (m : Nat) (h : m < 16) : hexVal (hexChar m) = some m := by
  interval_cases m <;> rfl

theorem hex4Val_hex4 (n : Nat) (h : n < 65536) :
    hex4Val (hexChar (n / 4096 % 16)) (hexChar (n / 256 % 16))
      (hexChar (n / 16 % 16)) (hexChar (n % 16)) = some n := by
  unfold hex4Val
  rw [hexVal_hexChar _ (by omega), hexVal_hexChar _ (by omega),
    hexVal_hexChar _ (by omega), hexVal_hexChar _ (by omega)]
  simp only [Option.bind_eq_bind, Option.some_bind, Option.some.injEq]
  omega

theorem parseStringBodyF_plain (l : List Char) :
    ∀ (fuel : Nat) (rest : List Char),
      (∀ c ∈ l, ¬ c = '"' ∧ ¬ c = '\\' ∧ ¬ c.toNat < 32) →
      l.length + 1 ≤ fuel →
      parseStringBodyF fuel (l ++ '"' :: rest) = some (l, rest) := by
  induction l with
  | nil =>
    intro fuel rest _ hf
    match fuel, hf with
    | f + 1, _ => simp [parseStringBodyF]
  | cons c l ih =>
    intro fuel rest hl hf
    match fuel, hf with
    | f + 1, hf =>
      obtain ⟨h1, h2, h3⟩ := hl c (List.mem_cons_self c l)
      simp only [List.cons_append, List.append_eq, parseStringBodyF, if_neg h1, if_neg h2, if_neg h3]
      rw [ih f rest (fun x hx => hl x (List.mem_cons_of_mem _ hx)) (by simp at hf ⊢; omega)]
      rfl

theorem parseStringBodyF_quote (l : List Char) :
    ∀ (fuel : Nat) (rest : List Char),
      l.length + 1 ≤ fuel →
      parseStringBodyF fuel ((l.map escapeChar).flatten ++ '"' :: rest) = some (l, rest) := by
  induction l with
  | nil =>
    intro fuel rest hf
    match fuel, hf with
    | f + 1, _ => simp [parseStringBodyF]
  | cons c l ih =>
    intro fuel rest hf
    match fuel, hf with
    | f + 1, hf =>
      have hrec : parseStringBodyF f ((l.map escapeChar).flatten ++ '"' :: rest) =
          some (l, rest) := ih f rest (by simp at hf ⊢; omega)
      simp only [List.map_cons, List.flatten_cons, List.append_assoc]
      set E := escapeChar c with hE
      rw [escapeChar] at hE
      split_ifs at hE with h1 h2 h3 h4 h5 h6 h7 <;> rw [hE]
      · subst h1
        simp [parseStringBodyF, simpleEscape, hrec]
      · subst h2
        simp [parseStringBodyF, simpleEscape, hrec]
      · subst h3
        simp [parseStringBodyF, simpleEscape, hrec]
      · subst h4
        simp [parseStringBodyF, simpleEscape, hrec]
      · subst h5
        simp [parseStringBodyF, simpleEscape, hrec]
      · -- \u00xx escapes for control and HTML-sensitive characters
        have hlt : c.toNat < 65536 := by
          rcases h6 with h | h | h | h
          · omega
          · subst h; decide
          · subst h; decide
          · subst h; decide
        have hvlow : c.toNat < 0xD800 := by
          rcases h6 with h | h | h | h
          · omega
          · subst h; decide
          · subst h; decide
          · subst h; decide
        simp only [hex4, List.cons_append]
        simp [parseStringBodyF, hex4Val_hex4 _ hlt, hrec, charOfNat_toNat]
        rw [if_neg (by omega : ¬ (55296 ≤ c.toNat ∧ c.toNat ≤ 56319)),
          if_neg (by omega : ¬ (56320 ≤ c.toNat ∧ c.toNat ≤ 57343))]
      · -- U+2028 / U+2029
        have hlt : c.toNat < 65536 := by omega
        simp only [hex4, List.cons_append]
        simp [parseStringBodyF, hex4Val_hex4 _ hlt, hrec, charOfNat_toNat]
        rw [if_neg (by omega : ¬ (55296 ≤ c.toNat ∧ c.toNat ≤ 56319)),
          if_neg (by omega : ¬ (56320 ≤ c.toNat ∧ c.toNat ≤ 57343))]
      · -- literal character
        have hge : ¬ c.toNat < 32 := by
          push_neg at h6
          omega
        simp [parseStringBodyF, if_neg h1, if_neg h2, if_neg hge, hrec]

theorem utf8EncodeChar_lt_256 (c : Char) : ∀ b ∈ utf8EncodeChar c, b < 256 := by
  intro b hb
  have h0 : c.toNat = c.val.toNat := rfl
  have hval : c.toNat < 1114112 := by
    rcases c.valid with h | h
    · omega
    · omega
  unfold utf8EncodeChar at hb
  split_ifs at hb <;> simp at hb <;> omega

theorem utf8EncodeChar_length_pos (c : Char) : 1 ≤ (utf8EncodeChar c).length := by
  unfold utf8EncodeChar
  split_ifs <;> simp

theorem utf8DecodeF_encode_cons (c : Char) (f : Nat) (bs : List Nat) :
    utf8DecodeF (f + 1) (utf8EncodeChar c ++ bs) =
      (utf8DecodeF f bs).map (fun l => c :: l) := by
  have h0 : c.toNat = c.val.toNat := rfl
  have hval : c.toNat < 0xD800 ∨ (0xE000 ≤ c.toNat ∧ c.toNat < 0x110000) := by
    rcases c.valid with h | h
    · exact Or.inl (by omega)
    · exact Or.inr (by omega)
  unfold utf8EncodeChar
  split_ifs with w1 w2 w3
  · simp only [List.append_eq, List.cons_append, List.nil_append, utf8DecodeF]
    rw [if_pos w1, charOfNat_toNat]
  · simp only [List.append_eq, List.cons_append, List.nil_append, utf8DecodeF]
    rw [if_neg (by omega), if_neg (by omega), if_pos (by omega)]
    rw [if_pos (by constructor <;> omega)]
    rw [if_neg (by omega)]
    rw [show (0xC0 + c.toNat / 64 - 0xC0) * 64 + (0x80 + c.toNat % 64 - 0x80) = c.toNat by omega]
    rw [charOfNat_toNat]
  · simp only [List.append_eq, List.cons_append, List.nil_append, utf8DecodeF]
    rw [if_neg (by omega), if_neg (by omega), if_neg (by omega), if_pos (by omega)]
    rw [if_pos (by refine ⟨⟨?_, ?_⟩, ?_, ?_⟩ <;> omega)]
    rw [if_neg (by omega)]
    rw [show (0xE0 + c.toNat / 4096 - 0xE0) * 4096 + (0x80 + c.toNat / 64 % 64 - 0x80) * 64 +
      (0x80 + c.toNat % 64 - 0x80) = c.toNat by omega]
    rw [charOfNat_toNat]
  · simp only [List.append_eq, List.cons_append, List.nil_append, utf8DecodeF]
    rw [if_neg (by omega), if_neg (by omega), if_neg (by omega), if_neg (by omega),
      if_pos (by omega)]
    rw [if_pos (by refine ⟨⟨?_, ?_⟩, ⟨?_, ?_⟩, ?_, ?_⟩ <;> omega)]
    rw [if_neg (by omega)]
    rw [show (0xF0 + c.toNat / 262144 - 0xF0) * 262144 + (0x80 + c.toNat / 4096 % 64 - 0x80) * 4096 +
      (0x80 + c.toNat / 64 % 64 - 0x80) * 64 + (0x80 + c.toNat % 64 - 0x80) = c.toNat by omega]
    rw [charOfNat_toNat]

theorem utf8DecodeF_encode (l : List Char) :
    ∀ fuel, l.length ≤ fuel → utf8DecodeF fuel (utf8Encode l) = some l := by
  induction l with
  | nil =>
    intro fuel _
    cases fuel <;> rfl
  | cons c l ih =>
    intro fuel hf
    match fuel, hf with
    | f + 1, hf =>
      unfold utf8Encode
      simp only [List.map_cons, List.flatten_cons]
      rw [utf8DecodeF_encode_cons]
      rw [show (List.map utf8EncodeChar l).flatten = utf8Encode l from rfl]
      rw [ih f (by simp at hf; omega)]
      rfl

theorem utf8Encode_length_ge (l : List Char) : l.length ≤ (utf8Encode l).length := by
  induction l with
  | nil => simp [utf8Encode]
  | cons c l ih =>
    unfold utf8Encode at ih ⊢
    simp only [List.map_cons, List.flatten_cons, List.length_append, List.length_cons]
    have := utf8EncodeChar_length_pos c
    omega

theorem utf8Decode_utf8Encode (l : List Char) : utf8Decode (utf8Encode l) = some l :=
  utf8DecodeF_encode l _ (utf8Encode_length_ge l)

theorem b64Val_b64Char : ∀ n, n < 64 → b64Val (b64Char n) = some n := by decide

theorem b64Decode_b64Encode (bs : List Nat) (h : ∀ b ∈ bs, b < 256) :
    b64Decode (b64Encode bs) = some bs := by
  induction bs using b64Encode.induct with
  | case1 => rfl
  | case2 b0 =>
    have hb0 : b0 < 256 := h b0 (by simp)
    simp only [b64Encode, b64Decode]
    rw [b64Val_b64Char _ (by omega), b64Val_b64Char _ (by omega)]
    simp only [Option.bind_eq_bind, Option.some_bind, Option.some.injEq, List.cons.injEq,
      and_true]
    omega
  | case3 b0 b1 =>
    have hb0 : b0 < 256 := h b0 (by simp)
    have hb1 : b1 < 256 := h b1 (by simp)
    simp only [b64Encode, b64Decode]
    rw [b64Val_b64Char _ (by omega), b64Val_b64Char _ (by omega), b64Val_b64Char _ (by omega)]
    simp only [Option.bind_eq_bind, Option.some_bind, Option.some.injEq, List.cons.injEq,
      and_true]
    constructor <;> omega
  | case4 b0 b1 b2 rest ih =>
    have hb0 : b0 < 256 := h b0 (by simp)
    have hb1 : b1 < 256 := h b1 (by simp)
    have hb2 : b2 < 256 := h b2 (by simp)
    have hrest : ∀ b ∈ rest, b < 256 := fun b hb => h b (by simp [hb])
    simp only [b64Encode, b64Decode]
    rw [b64Val_b64Char _ (by omega), b64Val_b64Char _ (by omega), b64Val_b64Char _ (by omega),
      b64Val_b64Char _ (by omega)]
    rw [ih hrest]
    simp only [Option.bind_eq_bind, Option.some_bind, Option.some.injEq, List.cons.injEq]
    refine ⟨by omega, by omega, by omega, trivial⟩

theorem escapeChar_length_pos (c : Char) : 1 ≤ (escapeChar c).length := by
  unfold escapeChar
  split_ifs <;> simp [hex4]

theorem escapes_flatten_length_ge (l : List Char) :
    l.length ≤ ((l.map escapeChar).flatten).length := by
  induction l with
  | nil => simp
  | cons c l ih =>
    simp only [List.map_cons, List.flatten_cons, List.length_append, List.length_cons]
    have := escapeChar_length_pos c
    omega

theorem isPrefixOf_append (pat rest : List Char) : pat.isPrefixOf (pat ++ rest) = true := by
  induction pat with
  | nil => simp [List.isPrefixOf]
  | cons a pat ih => simp [List.isPrefixOf, ih]

theorem expectChars_append (pat rest : List Char) : expectChars pat (pat ++ rest) = some rest := by
  unfold expectChars
  rw [if_pos (isPrefixOf_append pat rest), List.drop_left]

theorem padNum_mem_toNat (w n : Nat) (c : Char) (hc : c ∈ padNum w n) :
    48 ≤ c.toNat ∧ c.toNat ≤ 57 := by
  induction w generalizing n with
  | zero => simp [padNum] at hc
  | succ w ih =>
    simp only [padNum, List.mem_append, List.mem_singleton] at hc
    rcases hc with hc | hc
    · exact ih _ hc
    · rw [hc, digitChar_toNat _ (Nat.mod_lt _ (by norm_num))]
      omega

theorem toNat_ne (c d : Char) (h : ¬ c.toNat = d.toNat) : ¬ c = d := by
  intro he
  exact h (by rw [he])

theorem format_chars_toNat (t : GoTime) (c : Char) (hc : c ∈ formatRFC3339Nano t) :
    (48 ≤ c.toNat ∧ c.toNat ≤ 57) ∨
      c.toNat = 45 ∨ c.toNat = 84 ∨ c.toNat = 58 ∨ c.toNat = 46 ∨ c.toNat = 90 := by
  unfold formatRFC3339Nano at hc
  obtain hc | hc := List.mem_append.mp hc
  · exact Or.inl (padNum_mem_toNat _ _ _ hc)
  obtain hc | hc := List.mem_cons.mp hc
  · subst hc; simp
  obtain hc | hc := List.mem_append.mp hc
  · exact Or.inl (padNum_mem_toNat _ _ _ hc)
  obtain hc | hc := List.mem_cons.mp hc
  · subst hc; simp
  obtain hc | hc := List.mem_append.mp hc
  · exact Or.inl (padNum_mem_toNat _ _ _ hc)
  obtain hc | hc := List.mem_cons.mp hc
  · subst hc; simp
  obtain hc | hc := List.mem_append.mp hc
  · exact Or.inl (padNum_mem_toNat _ _ _ hc)
  obtain hc | hc := List.mem_cons.mp hc
  · subst hc; simp
  obtain hc | hc := List.mem_append.mp hc
  · exact Or.inl (padNum_mem_toNat _ _ _ hc)
  obtain hc | hc := List.mem_cons.mp hc
  · subst hc; simp
  obtain hc | hc := List.mem_append.mp hc
  obtain hc | hc := List.mem_append.mp hc
  · exact Or.inl (padNum_mem_toNat _ _ _ hc)
  · -- fracPart
    unfold fracPart at hc
    split_ifs at hc with h0
    · simp at hc
    · obtain hc | hc := List.mem_cons.mp hc
      · subst hc; simp
      · exact Or.inl (padNum_mem_toNat 9 t.nanosecond c (trimZeros_mem _ _ hc))
  · obtain hc | hc := List.mem_cons.mp hc
    · subst hc; simp
    · simp at hc

theorem format_chars_plain (t : GoTime) (c : Char) (hc : c ∈ formatRFC3339Nano t) :
    ¬ c = '"' ∧ ¬ c = '\\' ∧ ¬ c.toNat < 32 := by
  have hb := format_chars_toNat t c hc
  refine ⟨toNat_ne _ _ ?_, toNat_ne _ _ ?_, ?_⟩
  · show ¬ c.toNat = ('"' : Char).toNat
    rcases hb with ⟨h1, h2⟩ | h | h | h | h | h <;> simp <;> omega
  · show ¬ c.toNat = ('\\' : Char).toNat
    rcases hb with ⟨h1, h2⟩ | h | h | h | h | h <;> simp <;> omega
  · rcases hb with ⟨h1, h2⟩ | h | h | h | h | h <;> omega

theorem parseJSONString_quoteJSON (l rest : List Char) :
    parseJSONString (quoteJSON l ++ rest) = some (l, rest) := by
  unfold quoteJSON parseJSONString
  simp only [List.cons_append, List.append_assoc, List.singleton_append]
  unfold parseStringBody
  exact parseStringBodyF_quote l _ rest (by
    have := escapes_flatten_length_ge l
    simp only [List.length_append, List.length_cons]
    omega)

theorem parseJSONString_plain (l rest : List Char)
    (hl : ∀ c ∈ l, ¬ c = '"' ∧ ¬ c = '\\' ∧ ¬ c.toNat < 32) :
    parseJSONString ('"' :: (l ++ '"' :: rest)) = some (l, rest) := by
  unfold parseJSONString parseStringBody
  exact parseStringBodyF_plain l _ rest hl (by
    simp only [List.length_append, List.length_cons]
    omega)

theorem parseCursorChars_marshal (c : Cursor) (m : List Char)
    (hv : c.Time.Valid) (hm : marshalCursorChars c = some m) :
    parseCursorChars m = some c := by
  unfold marshalCursorChars at hm
  rw [if_pos hv.1] at hm
  obtain rfl := (Option.some.injEq _ _).mp hm
  unfold parseCursorChars
  simp only [List.append_assoc]
  rw [expectChars_append]
  simp only [Option.bind_eq_bind, Option.some_bind]
  rw [parseJSONString_quoteJSON]
  simp only [Option.some_bind]
  rw [show (",\"time\":\"".toList : List Char) = ",\"time\":".toList ++ ['"'] from rfl]
  simp only [List.append_assoc, List.singleton_append]
  rw [expectChars_append]
  simp only [Option.some_bind]
  rw [show ("\"\x7d".toList : List Char) = '"' :: ['}'] from rfl]
  rw [parseJSONString_plain _ _ (fun x hx => format_chars_plain c.Time x hx)]
  simp only [Option.some_bind]
  rw [parseRFC3339_format c.Time hv]
  simp only [Option.some_bind, if_pos rfl]
  rw [show expectChars "\x7d".toList ['}'] = some [] from rfl]
  simp only [Option.some_bind, if_pos rfl, asString_toList]
  simp

theorem utf8Encode_lt_256 (l : List Char) : ∀ b ∈ utf8Encode l, b < 256 := by
  intro b hb
  unfold utf8Encode at hb
  simp only [List.mem_flatten, List.mem_map] at hb
  obtain ⟨bl, ⟨ch, _, rfl⟩, hbl⟩ := hb
  exact utf8EncodeChar_lt_256 ch b hbl

theorem decodeCursor_encodeCursor (c : Cursor) (hv : c.Time.Valid) :
    DecodeCursor (EncodeCursor c) = some c := by
  have hm : marshalCursorChars c = some ("\x7b\"id\":".toList ++ quoteJSON c.ID.toList ++
      ",\"time\":\"".toList ++ formatRFC3339Nano c.Time ++ "\"\x7d".toList) := by
    unfold marshalCursorChars
    rw [if_pos hv.1]
  unfold EncodeCursor DecodeCursor
  rw [hm]
  simp only [Option.getD_some, toList_asString]
  rw [b64Decode_b64Encode _ (utf8Encode_lt_256 _)]
  simp only [Option.bind_eq_bind, Option.some_bind]
  rw [utf8Decode_utf8Encode]
  simp only [Option.some_bind]
  exact parseCursorChars_marshal c _ hv hm

/-! ## Claim C1: cursor round trip -/

/-- Claim C1: for every valid `Cursor` value `c` (an identifier string plus a
timestamp representable as a Go `time.Time` acceptable to its JSON
marshaller), decoding the token produced by encoding `c` yields a cursor
identical to `c`: `DecodeCursor (EncodeCursor c) = some c`. -/
theorem C1_cursor_roundtrip (c : Cursor) (h : c.Time.Valid) :
    DecodeCursor (EncodeCursor c) = some c :=
  decodeCursor_encodeCursor c h

/-- Claim C1, witness: the round trip at a concrete cursor whose identifier
needs JSON escaping and whose timestamp has a trimmed fractional second. -/
theorem C1_cursor_roundtrip_witness :
    (GoTime.mk 2024 5 17 13 45 9 123450000).Valid ∧
    DecodeCursor (EncodeCursor ⟨"id<7>\"x\\", ⟨2024, 5, 17, 13, 45, 9, 123450000⟩⟩) =
      some ⟨"id<7>\"x\\", ⟨2024, 5, 17, 13, 45, 9, 123450000⟩⟩ :=
  ⟨by decide, C1_cursor_roundtrip _ (by decide)⟩

/-! ## Claims C6 and C10: the cursor clause of predicate building -/

/-- Claim C6: for every query with a non-empty page token, if the token
decodes then the generated predicate ends with the strict clause
`id < cursor.ID` bound to the decoded cursor's identifier; if the token
fails to decode, predicate building fails with the invalid-cursor error and
produces no predicate.  Both `TicketQuery.ToSql` and `HelpDeskQuery.ToSql`
are covered. -/
theorem C6_page_token_predicate :
    (∀ q : TicketQuery, q.PageToken ≠ "" →
      (DecodeCursor q.PageToken = none →
        q.ToSql = Except.error SqlError.invalidCursor) ∧
      (∀ cursor, DecodeCursor q.PageToken = some cursor →
        q.ToSql = Except.ok (q.baseClauses ++ [Clause.exprIdLt cursor.ID]))) ∧
    (∀ q : HelpDeskQuery, q.PageToken ≠ "" →
      (DecodeCursor q.PageToken = none →
        q.ToSql = Except.error SqlError.invalidCursor) ∧
      (∀ cursor, DecodeCursor q.PageToken = some cursor →
        q.ToSql = Except.ok (q.baseClauses ++ [Clause.exprIdLt cursor.ID]))) := by
  constructor <;>
    · intro q hq
      constructor
      · intro hdec
        simp only [TicketQuery.ToSql, HelpDeskQuery.ToSql]
        rw [if_pos hq, hdec]
      · intro cursor hdec
        simp only [TicketQuery.ToSql, HelpDeskQuery.ToSql]
        rw [if_pos hq, hdec]

/-- Claim C6, witness: a concrete query with a decodable token produces the
strict identifier bound for the encoded identifier `"42"`; the token `"%%%"`
fails to decode and produces the invalid-cursor error. -/
theorem C6_page_token_predicate_witness :
    TicketQuery.ToSql
        ⟨"", "", "", "", "", "", GoTime.zero, GoTime.zero, 0,
          "eyJpZCI6IjQyIiwidGltZSI6IjIwMjQtMDEtMDJUMDM6MDQ6MDVaIn0"⟩ =
      Except.ok (TicketQuery.baseClauses
        ⟨"", "", "", "", "", "", GoTime.zero, GoTime.zero, 0,
          "eyJpZCI6IjQyIiwidGltZSI6IjIwMjQtMDEtMDJUMDM6MDQ6MDVaIn0"⟩ ++
        [Clause.exprIdLt "42"]) ∧
    TicketQuery.ToSql ⟨"", "", "", "", "", "", GoTime.zero, GoTime.zero, 0, "%%%"⟩ =
      Except.error SqlError.invalidCursor :=
  ⟨(C6_page_token_predicate.1 _ (by decide)).2 ⟨"42", ⟨2024, 1, 2, 3, 4, 5, 0⟩⟩ (by decide),
   (C6_page_token_predicate.1 _ (by decide)).1 (by decide)⟩

/-- Claim C10: the timestamp carried in a page token never influences query
construction — two tokens decoding to cursors with the same identifier but
different timestamps produce identical predicates and bound parameters, for
both query types. -/
theorem C10_token_time_irrelevant :
    (∀ (q : TicketQuery) (t1 t2 : String) (c1 c2 : Cursor),
      DecodeCursor t1 = some c1 → DecodeCursor t2 = some c2 →
      c1.ID = c2.ID → c1.Time ≠ c2.Time →
      TicketQuery.ToSql { q with PageToken := t1 } =
        TicketQuery.ToSql { q with PageToken := t2 }) ∧
    (∀ (q : HelpDeskQuery) (t1 t2 : String) (c1 c2 : Cursor),
      DecodeCursor t1 = some c1 → DecodeCursor t2 = some c2 →
      c1.ID = c2.ID → c1.Time ≠ c2.Time →
      HelpDeskQuery.ToSql { q with PageToken := t1 } =
        HelpDeskQuery.ToSql { q with PageToken := t2 }) := by
  constructor <;>
  · intro q t1 t2 c1 c2 h1 h2 hid _
    have ht1 : t1 ≠ "" := by
      rintro rfl
      rw [show DecodeCursor "" = none from rfl] at h1
      exact absurd h1 (by simp)
    have ht2 : t2 ≠ "" := by
      rintro rfl
      rw [show DecodeCursor "" = none from rfl] at h2
      exact absurd h2 (by simp)
    simp only [TicketQuery.ToSql, HelpDeskQuery.ToSql]
    rw [if_pos ht1, if_pos ht2, h1, h2]
    dsimp only
    rw [hid]
    rfl

/-- Claim C10, witness: two concrete tokens carrying identifier `"42"` with
different timestamps yield identical predicates. -/
theorem C10_token_time_irrelevant_witness :
    TicketQuery.ToSql ⟨"", "", "", "", "", "", GoTime.zero, GoTime.zero, 0,
        "eyJpZCI6IjQyIiwidGltZSI6IjIwMjQtMDEtMDJUMDM6MDQ6MDVaIn0"⟩ =
      TicketQuery.ToSql ⟨"", "", "", "", "", "", GoTime.zero, GoTime.zero, 0,
        "eyJpZCI6IjQyIiwidGltZSI6IjIwMjMtMDYtMDdUMDg6MDk6MTBaIn0"⟩ :=
  C10_token_time_irrelevant.1
    ⟨"", "", "", "", "", "", GoTime.zero, GoTime.zero, 0, ""⟩
    _ _ ⟨"42", ⟨2024, 1, 2, 3, 4, 5, 0⟩⟩ ⟨"42", ⟨2023, 6, 7, 8, 9, 10, 0⟩⟩
    (by decide) (by decide) rfl (by decide)

theorem Size_pos (n : Nat) : 1 ≤ Size n := by
  unfold Size
  split_ifs <;> omega

theorem b64Encode_ne_nil (bs : List Nat) (h : bs ≠ []) : b64Encode bs ≠ [] := by
  match bs, h with
  | [b0], _ => simp [b64Encode]
  | [b0, b1], _ => simp [b64Encode]
  | b0 :: b1 :: b2 :: rest, _ => simp [b64Encode]

theorem encodeCursor_ne_empty (c : Cursor) (hv : c.Time.Valid) : EncodeCursor c ≠ "" := by
  have hm : marshalCursorChars c = some ("\x7b\"id\":".toList ++ quoteJSON c.ID.toList ++
      ",\"time\":\"".toList ++ formatRFC3339Nano c.Time ++ "\"\x7d".toList) := by
    unfold marshalCursorChars
    rw [if_pos hv.1]
  unfold EncodeCursor
  rw [hm]
  simp only [Option.getD_some]
  intro he
  have h2 : (b64Encode (utf8Encode ("\x7b\"id\":".toList ++ quoteJSON c.ID.toList ++
      ",\"time\":\"".toList ++ formatRFC3339Nano c.Time ++ "\"\x7d".toList))) = [] := by
    have := congrArg String.toList he
    rwa [toList_asString] at this
  refine b64Encode_ne_nil _ ?_ h2
  intro hu
  have h7 := utf8Encode_length_ge ("\x7b\"id\":".toList ++ quoteJSON c.ID.toList ++
    ",\"time\":\"".toList ++ formatRFC3339Nano c.Time ++ "\"\x7d".toList)
  rw [hu] at h7
  simp at h7

/-! ## Claim C5: next-page-token emission -/

/-- Claim C5: after a successful fetch, the list service emits a non-empty
next page token if and only if the returned page's length equals the
resolved page size, and that token is the encoding of the last returned
record's identifier and creation timestamp; otherwise the token is the empty
string.  Stated for both `ListTickets` and `ListHelpDesks`, under the
store-guaranteed hypothesis that fetched creation timestamps are
representable calendar times (SQL Server `datetime` years lie in 0..9999,
so encoding a fetched record's cursor never fails). -/
theorem C5_next_page_token (tickets : List Ticket) (q : TicketQuery)
    (helpDesks : List HelpDesk) (q2 : HelpDeskQuery)
    (hvalid : ∀ t ∈ tickets, t.CreatedAt.Valid)
    (hvalid2 : ∀ h ∈ helpDesks, h.CreatedAt.Valid) :
    ((ListTickets tickets q).NextPageToken ≠ "" ↔ tickets.length = Size q.PageSize) ∧
    (∀ last, tickets.getLast? = some last → tickets.length = Size q.PageSize →
      (ListTickets tickets q).NextPageToken = EncodeCursor ⟨last.ID, last.CreatedAt⟩) ∧
    ((ListHelpDesks helpDesks q2).NextPageToken ≠ "" ↔ helpDesks.length = Size q2.PageSize) ∧
    (∀ last, helpDesks.getLast? = some last → helpDesks.length = Size q2.PageSize →
      (ListHelpDesks helpDesks q2).NextPageToken = EncodeCursor ⟨last.ID, last.CreatedAt⟩) := by
  have hTpos : 1 ≤ Size q.PageSize := Size_pos _
  have hHpos : 1 ≤ Size q2.PageSize := Size_pos _
  refine ⟨?_, ?_, ?_, ?_⟩
  · constructor
    · intro hne
      by_contra hlen
      have : (ListTickets tickets q).NextPageToken = "" := by
        unfold ListTickets
        rw [if_neg (by exact fun hc => hlen hc.2)]
      exact hne this
    · intro hlen
      have hpos : 0 < tickets.length := by omega
      obtain ⟨last, hlast⟩ : ∃ last, tickets.getLast? = some last := by
        cases htl : tickets.getLast? with
        | some a => exact ⟨a, rfl⟩
        | none =>
          rw [List.getLast?_eq_none_iff] at htl
          rw [htl] at hpos
          simp at hpos
      unfold ListTickets
      rw [if_pos ⟨hpos, hlen⟩, hlast]
      exact encodeCursor_ne_empty _ (hvalid last (List.mem_of_getLast?_eq_some hlast))
  · intro last hlast hlen
    unfold ListTickets
    rw [if_pos ⟨by omega, hlen⟩, hlast]
  · constructor
    · intro hne
      by_contra hlen
      have : (ListHelpDesks helpDesks q2).NextPageToken = "" := by
        unfold ListHelpDesks
        rw [if_neg (by exact fun hc => hlen hc.2)]
      exact hne this
    · intro hlen
      have hpos : 0 < helpDesks.length := by omega
      obtain ⟨last, hlast⟩ : ∃ last, helpDesks.getLast? = some last := by
        cases htl : helpDesks.getLast? with
        | some a => exact ⟨a, rfl⟩
        | none =>
          rw [List.getLast?_eq_none_iff] at htl
          rw [htl] at hpos
          simp at hpos
      unfold ListHelpDesks
      rw [if_pos ⟨hpos, hlen⟩, hlast]
      exact encodeCursor_ne_empty _ (hvalid2 last (List.mem_of_getLast?_eq_some hlast))
  · intro last hlast hlen
    unfold ListHelpDesks
    rw [if_pos ⟨by omega, hlen⟩, hlast]


/-- Claim C5, witness: a one-record page with requested size 1 emits exactly
the encoded cursor of that record. -/
theorem C5_next_page_token_witness :
    (ListTickets
      [⟨"9", "n", "c", "p", "s", "t", "d", ⟨"e", "dn", "po", "de", "br"⟩, ⟨"sd", "sp"⟩,
        ⟨2024, 1, 1, 0, 0, 0, 0⟩, ⟨1900, 1, 1, 0, 0, 0, 0⟩⟩]
      ⟨"", "", "", "", "", "", GoTime.zero, GoTime.zero, 1, ""⟩).NextPageToken =
    EncodeCursor ⟨"9", ⟨2024, 1, 1, 0, 0, 0, 0⟩⟩ :=
  (C5_next_page_token _ _ [] ⟨"", "", "", "", "", "", GoTime.zero, GoTime.zero, 1, ""⟩
    (by decide) (by decide)).2.1
    ⟨"9", "n", "c", "p", "s", "t", "d", ⟨"e", "dn", "po", "de", "br"⟩, ⟨"sd", "sp"⟩,
      ⟨2024, 1, 1, 0, 0, 0, 0⟩, ⟨1900, 1, 1, 0, 0, 0, 0⟩⟩ rfl (by decide)

/-! ## Claim C3: closed-date sentinel normalization -/

/-- Claim C3, counterexample: a fetched `v_hepldesk_ticket_report` row whose
closed-date equals the sentinel 1900-01-01 is copied unchanged by the
`listTickets` row scan — the record returned by the ticket list operation
still carries 1900-01-01 (not an absent/zero value), contradicting the claim
that the sentinel is normalized to absent in the list result. -/
theorem C3_counterexample_ticket_list_sentinel :
    (scanTicketRow ⟨"1", "n", "c", "p", "PENDING", "t", "d", "e", "dn", "po", "de", "br",
      "sn", "sp", ⟨2024, 1, 1, 0, 0, 0, 0⟩, ⟨1900, 1, 1, 0, 0, 0, 0⟩⟩).ClosedDate =
      ⟨1900, 1, 1, 0, 0, 0, 0⟩ ∧
    formatYMD (scanTicketRow ⟨"1", "n", "c", "p", "PENDING", "t", "d", "e", "dn", "po", "de",
      "br", "sn", "sp", ⟨2024, 1, 1, 0, 0, 0, 0⟩, ⟨1900, 1, 1, 0, 0, 0, 0⟩⟩).ClosedDate =
      "1900-01-01" ∧
    (⟨1900, 1, 1, 0, 0, 0, 0⟩ : GoTime) ≠ GoTime.zero :=
  ⟨rfl, by decide, by decide⟩

/-- Claim C3 (amended): the helpdesk list operation (`listHelpDesks`)
normalizes the string sentinel `"1900-01-01"` to the empty (absent) closed
date, and the exported document's Closed Date cell is left empty exactly when
the record's closed date formats to the sentinel; the ticket list operation
(`listTickets`), however, copies the scanned closed-date time into its
records unchanged, sentinel included. -/
theorem C3_sentinel_normalization (r : HelpDeskRow) (t : Ticket) (row : TicketRow) :
    (r.closedDate = "1900-01-01" → (scanHelpDeskRow r).ClosedDate = "") ∧
    (r.closedDate ≠ "1900-01-01" → (scanHelpDeskRow r).ClosedDate = r.closedDate) ∧
    (formatYMD t.ClosedDate = "1900-01-01" → closedDateCell t = "") ∧
    (formatYMD t.ClosedDate ≠ "1900-01-01" → closedDateCell t = formatDMY t.ClosedDate) ∧
    (scanTicketRow row).ClosedDate = row.closedDate := by
  refine ⟨?_, ?_, ?_, ?_, rfl⟩
  · intro h
    simp [scanHelpDeskRow, h]
  · intro h
    simp [scanHelpDeskRow, h]
  · intro h
    simp [closedDateCell, h]
  · intro h
    simp [closedDateCell, h]

/-- Claim C3, witness: the sentinel and a regular date, through both the
helpdesk row scan and the export cell rendering. -/
theorem C3_sentinel_normalization_witness :
    (scanHelpDeskRow ⟨"1", "n", "c", "p", "PENDING", "t", "d", "e", "dn", "po", "de", "br",
      "sn", "sp", ⟨2024, 1, 1, 0, 0, 0, 0⟩, "1900-01-01"⟩).ClosedDate = "" ∧
    closedDateCell ⟨"1", "n", "c", "p", "PENDING", "t", "d",
      ⟨"e", "dn", "po", "de", "br"⟩, ⟨"sn", "sp"⟩,
      ⟨2024, 1, 1, 0, 0, 0, 0⟩, ⟨1900, 1, 1, 7, 8, 9, 10⟩⟩ = "" ∧
    closedDateCell ⟨"1", "n", "c", "p", "PENDING", "t", "d",
      ⟨"e", "dn", "po", "de", "br"⟩, ⟨"sn", "sp"⟩,
      ⟨2024, 1, 1, 0, 0, 0, 0⟩, ⟨2024, 3, 5, 0, 0, 0, 0⟩⟩ = "05/03/2024" :=
  ⟨(C3_sentinel_normalization _ ⟨"1", "n", "c", "p", "PENDING", "t", "d",
      ⟨"e", "dn", "po", "de", "br"⟩, ⟨"sn", "sp"⟩,
      ⟨2024, 1, 1, 0, 0, 0, 0⟩, ⟨1900, 1, 1, 7, 8, 9, 10⟩⟩
      ⟨"1", "n", "c", "p", "PENDING", "t", "d", "e", "dn", "po", "de", "br",
        "sn", "sp", ⟨2024, 1, 1, 0, 0, 0, 0⟩, ⟨2024, 1, 1, 0, 0, 0, 0⟩⟩).1 rfl,
   (C3_sentinel_normalization ⟨"1", "n", "c", "p", "PENDING", "t", "d", "e", "dn", "po", "de",
      "br", "sn", "sp", ⟨2024, 1, 1, 0, 0, 0, 0⟩, "1900-01-01"⟩
      ⟨"1", "n", "c", "p", "PENDING", "t", "d",
        ⟨"e", "dn", "po", "de", "br"⟩, ⟨"sn", "sp"⟩,
        ⟨2024, 1, 1, 0, 0, 0, 0⟩, ⟨1900, 1, 1, 7, 8, 9, 10⟩⟩
      ⟨"1", "n", "c", "p", "PENDING", "t", "d", "e", "dn", "po", "de", "br",
        "sn", "sp", ⟨2024, 1, 1, 0, 0, 0, 0⟩, ⟨2024, 1, 1, 0, 0, 0, 0⟩⟩).2.2.1 (by decide),
   (C3_sentinel_normalization ⟨"1", "n", "c", "p", "PENDING", "t", "d", "e", "dn", "po", "de",
      "br", "sn", "sp", ⟨2024, 1, 1, 0, 0, 0, 0⟩, "1900-01-01"⟩
      ⟨"1", "n", "c", "p", "PENDING", "t", "d",
        ⟨"e", "dn", "po", "de", "br"⟩, ⟨"sn", "sp"⟩,
        ⟨2024, 1, 1, 0, 0, 0, 0⟩, ⟨2024, 3, 5, 0, 0, 0, 0⟩⟩
      ⟨"1", "n", "c", "p", "PENDING", "t", "d", "e", "dn", "po", "de", "br",
        "sn", "sp", ⟨2024, 1, 1, 0, 0, 0, 0⟩, ⟨2024, 1, 1, 0, 0, 0, 0⟩⟩).2.2.2.1 (by decide)⟩

/-! ## Claim C9: not-found versus empty result -/

/-- Claim C9: the page fetchers (`listTickets` and `batchGetTickets`) fail
with the not-found error only when some `rows.Scan` call reports the
explicit `sql.ErrNoRows` condition; an ordinary empty result (no rows at
all) is not an error and yields the empty record list, and an all-successful
scan yields exactly the scanned records. -/
theorem C9_notfound_semantics :
    (∀ rows : List TicketRow,
      listTicketsFetch (rows.map ScanAttempt.ok) none = Except.ok (rows.map scanTicketRow) ∧
      batchGetTicketsFetch (rows.map ScanAttempt.ok) none =
        Except.ok (rows.map scanTicketRow)) ∧
    (listTicketsFetch [] none = Except.ok [] ∧ batchGetTicketsFetch [] none = Except.ok []) ∧
    (∀ (attempts : List (ScanAttempt TicketRow)) (iterErr : Option String),
      (listTicketsFetch attempts iterErr = Except.error FetchError.notFound →
        ScanAttempt.errNoRows ∈ attempts) ∧
      (batchGetTicketsFetch attempts iterErr = Except.error FetchError.notFound →
        ScanAttempt.errNoRows ∈ attempts)) := by
  have loop1 : ∀ rows : List TicketRow,
      listTicketsRowLoop (rows.map ScanAttempt.ok) = Except.ok (rows.map scanTicketRow) := by
    intro rows
    induction rows with
    | nil => rfl
    | cons r rows ih => simp [listTicketsRowLoop, ih, Except.map]
  have loop2 : ∀ rows : List TicketRow,
      batchGetTicketsRowLoop (rows.map ScanAttempt.ok) = Except.ok (rows.map scanTicketRow) := by
    intro rows
    induction rows with
    | nil => rfl
    | cons r rows ih => simp [batchGetTicketsRowLoop, ih, Except.map]
  have mem1 : ∀ attempts : List (ScanAttempt TicketRow),
      listTicketsRowLoop attempts = Except.error FetchError.notFound →
      ScanAttempt.errNoRows ∈ attempts := by
    intro attempts
    induction attempts with
    | nil => intro h; exact absurd h (by simp [listTicketsRowLoop])
    | cons a rest ih =>
      intro h
      cases a with
      | ok r =>
        simp only [listTicketsRowLoop] at h
        cases hr : listTicketsRowLoop rest with
        | ok l => rw [hr] at h; exact absurd h (by simp [Except.map])
        | error e =>
          rw [hr] at h
          simp only [Except.map] at h
          obtain rfl := (Except.error.injEq _ _).mp h
          exact List.mem_cons_of_mem _ (ih hr)
      | errNoRows => exact List.mem_cons_self _ _
      | errOther m =>
        simp only [listTicketsRowLoop] at h
        exact absurd ((Except.error.injEq _ _).mp h) (by simp)
  have mem2 : ∀ attempts : List (ScanAttempt TicketRow),
      batchGetTicketsRowLoop attempts = Except.error FetchError.notFound →
      ScanAttempt.errNoRows ∈ attempts := by
    intro attempts
    induction attempts with
    | nil => intro h; exact absurd h (by simp [batchGetTicketsRowLoop])
    | cons a rest ih =>
      intro h
      cases a with
      | ok r =>
        simp only [batchGetTicketsRowLoop] at h
        cases hr : batchGetTicketsRowLoop rest with
        | ok l => rw [hr] at h; exact absurd h (by simp [Except.map])
        | error e =>
          rw [hr] at h
          simp only [Except.map] at h
          obtain rfl := (Except.error.injEq _ _).mp h
          exact List.mem_cons_of_mem _ (ih hr)
      | errNoRows => exact List.mem_cons_self _ _
      | errOther m =>
        simp only [batchGetTicketsRowLoop] at h
        exact absurd ((Except.error.injEq _ _).mp h) (by simp)
  refine ⟨fun rows => ⟨?_, ?_⟩, ⟨rfl, rfl⟩, fun attempts iterErr => ⟨?_, ?_⟩⟩
  · simp [listTicketsFetch, loop1 rows]
  · simp [batchGetTicketsFetch, loop2 rows]
  · intro h
    unfold listTicketsFetch at h
    cases hr : listTicketsRowLoop attempts with
    | error e =>
      rw [hr] at h
      obtain rfl := (Except.error.injEq _ _).mp h
      exact mem1 _ hr
    | ok l =>
      rw [hr] at h
      cases iterErr with
      | none => exact absurd h (by simp)
      | some m => exact absurd ((Except.error.injEq _ _).mp h) (by simp)
  · intro h
    unfold batchGetTicketsFetch at h
    cases hr : batchGetTicketsRowLoop attempts with
    | error e =>
      rw [hr] at h
      obtain rfl := (Except.error.injEq _ _).mp h
      exact mem2 _ hr
    | ok l =>
      rw [hr] at h
      cases iterErr with
      | none => exact absurd h (by simp)
      | some m => exact absurd ((Except.error.injEq _ _).mp h) (by simp)

/-- Claim C9, witness: a successful one-row scan and the empty result, for
both fetchers. -/
theorem C9_notfound_semantics_witness :
    listTicketsFetch
      [ScanAttempt.ok ⟨"1", "n", "c", "p", "PENDING", "t", "d", "e", "dn", "po", "de", "br",
        "sn", "sp", ⟨2024, 1, 1, 0, 0, 0, 0⟩, ⟨2024, 1, 1, 0, 0, 0, 0⟩⟩] none =
      Except.ok [scanTicketRow ⟨"1", "n", "c", "p", "PENDING", "t", "d", "e", "dn", "po", "de",
        "br", "sn", "sp", ⟨2024, 1, 1, 0, 0, 0, 0⟩, ⟨2024, 1, 1, 0, 0, 0, 0⟩⟩] ∧
    ScanAttempt.errNoRows ∈
      ([ScanAttempt.ok ⟨"1", "n", "c", "p", "PENDING", "t", "d", "e", "dn", "po", "de", "br",
        "sn", "sp", ⟨2024, 1, 1, 0, 0, 0, 0⟩, ⟨2024, 1, 1, 0, 0, 0, 0⟩⟩,
       ScanAttempt.errNoRows] : List (ScanAttempt TicketRow)) :=
  ⟨(C9_notfound_semantics.1 ([⟨"1", "n", "c", "p", "PENDING", "t", "d", "e", "dn", "po", "de",
      "br", "sn", "sp", ⟨2024, 1, 1, 0, 0, 0, 0⟩, ⟨2024, 1, 1, 0, 0, 0, 0⟩⟩] :
      List TicketRow)).1,
   (C9_notfound_semantics.2.2
      ([ScanAttempt.ok ⟨"1", "n", "c", "p", "PENDING", "t", "d", "e", "dn", "po", "de", "br",
        "sn", "sp", ⟨2024, 1, 1, 0, 0, 0, 0⟩, ⟨2024, 1, 1, 0, 0, 0, 0⟩⟩,
       ScanAttempt.errNoRows] : List (ScanAttempt TicketRow)) none).1 rfl⟩

theorem priority_bucket_sum (L : List ReportRow) :
    (L.filter (fun r => r.priority == "HIGHT")).length +
    (L.filter (fun r => r.priority == "MEDIUEM")).length +
    (L.filter (fun r => r.priority == "LOW")).length +
    (L.filter (fun r =>
      ¬ (r.priority = "HIGHT" ∨ r.priority = "MEDIUEM" ∨ r.priority = "LOW"))).length =
    L.length := by
  induction L with
  | nil => rfl
  | cons r L ih =>
    simp only [List.filter_cons]
    by_cases h1 : r.priority = "HIGHT" <;>
      by_cases h2 : r.priority = "MEDIUEM" <;>
        by_cases h3 : r.priority = "LOW" <;>
          simp_all <;> omega

theorem status_bucket_sum (L : List ReportRow) :
    (L.filter (fun r => r.status == "FINISHED,MANAGER(APPROVE),IT(IN PROGRESS)")).length +
    (L.filter (fun r => r.status == "FINISHED,MANAGER(APPROVE),IT(RESOLVE)")).length +
    (L.filter (fun r =>
      ¬ (r.status = "FINISHED,MANAGER(APPROVE),IT(IN PROGRESS)" ∨
         r.status = "FINISHED,MANAGER(APPROVE),IT(RESOLVE)"))).length =
    L.length := by
  induction L with
  | nil => rfl
  | cons r L ih =>
    simp only [List.filter_cons]
    by_cases h1 : r.status = "FINISHED,MANAGER(APPROVE),IT(IN PROGRESS)" <;>
      by_cases h2 : r.status = "FINISHED,MANAGER(APPROVE),IT(RESOLVE)" <;>
        simp_all <;> omega

/-! ## Claim C8 -/

/-- Claim C8, counterexample: with a blank-named group and a group named
`"!"` (which sorts below `"(Blank)"`), the generated priority report's rows
are NOT sorted ascending by (displayed) group name: the SQL orders the empty
name first, and the later substitution to `"(Blank)"` breaks the order. -/
theorem C8_counterexample_blank_order :
    (listPriorityReports
      [⟨"", "s", "HIGHT", "X", ⟨2024, 1, 1, 0, 0, 0, 0⟩⟩,
       ⟨"!", "s", "LOW", "X", ⟨2024, 1, 1, 0, 0, 0, 0⟩⟩]
      ⟨GoTime.zero, GoTime.zero⟩).map (fun r => r.Name) = ["(Blank)", "!"] ∧
    ¬ List.Sorted strLe
      ((listPriorityReports
        [⟨"", "s", "HIGHT", "X", ⟨2024, 1, 1, 0, 0, 0, 0⟩⟩,
         ⟨"!", "s", "LOW", "X", ⟨2024, 1, 1, 0, 0, 0, 0⟩⟩]
        ⟨GoTime.zero, GoTime.zero⟩).map (fun r => r.Name)) := by
  constructor
  · decide
  · decide

/-- Claim C8 (amended): every generated aggregate report row has bucket
counts summing to its total and a never-empty name (`"(Blank)"` replaces an
empty group name); the rows are sorted ascending by the underlying group
key — the order produced by `ORDER BY ... ASC` before the `"(Blank)"`
substitution — and the displayed names are exactly the sorted keys with the
empty key replaced by `"(Blank)"`.  (Sorted-by-displayed-name fails when a
group name orders below `"(Blank)"`, see the counterexample.) -/
theorem C8_report_invariants (rows : List ReportRow) (q : ReportQuery) :
    (∀ r ∈ listCategoryReports rows q,
      r.InProgress + r.Resolved + r.Blank = r.Total ∧ r.Name ≠ "") ∧
    (∀ r ∈ listSupporterReports rows q,
      r.InProgress + r.Resolved + r.Blank = r.Total ∧ r.Name ≠ "") ∧
    (∀ r ∈ listPriorityReports rows q,
      r.High + r.Medium + r.Low + r.Blank = r.Total ∧ r.Name ≠ "") ∧
    List.Sorted strLe (reportKeys (fun r => r.category)
      (rows.filter (fun r => matchesReportRange q r.createdAt))) ∧
    List.Sorted strLe (reportKeys (fun r => r.supporterName)
      (rows.filter (fun r => matchesReportRange q r.createdAt))) ∧
    (listCategoryReports rows q).map (fun r => r.Name) =
      (reportKeys (fun r => r.category)
        (rows.filter (fun r => matchesReportRange q r.createdAt))).map
        (fun g => if g = "" then "(Blank)" else g) ∧
    (listSupporterReports rows q).map (fun r => r.Name) =
      (reportKeys (fun r => r.supporterName)
        (rows.filter (fun r => matchesReportRange q r.createdAt))).map
        (fun g => if g = "" then "(Blank)" else g) ∧
    (listPriorityReports rows q).map (fun r => r.Name) =
      (reportKeys (fun r => r.category)
        (rows.filter (fun r => matchesReportRange q r.createdAt))).map
        (fun g => if g = "" then "(Blank)" else g) := by
  refine ⟨?_, ?_, ?_, List.sorted_insertionSort _ _, List.sorted_insertionSort _ _, ?_, ?_, ?_⟩
  · intro r hr
    simp only [listCategoryReports, List.mem_map] at hr
    obtain ⟨g, hg, rfl⟩ := hr
    refine ⟨?_, ?_⟩
    · have hsum := status_bucket_sum
        ((rows.filter (fun r => matchesReportRange q r.createdAt)).filter
          (fun r => r.category == g))
      by_cases hgb : g = ""
      · subst hgb
        simp at hsum ⊢
        omega
      · simp [hgb] at hsum ⊢
        omega
    · by_cases hgb : g = "" <;> simp [hgb]
  · intro r hr
    simp only [listSupporterReports, List.mem_map] at hr
    obtain ⟨g, hg, rfl⟩ := hr
    refine ⟨?_, ?_⟩
    · have hsum := status_bucket_sum
        ((rows.filter (fun r => matchesReportRange q r.createdAt)).filter
          (fun r => r.supporterName == g))
      by_cases hgb : g = ""
      · subst hgb
        simp at hsum ⊢
        omega
      · simp [hgb] at hsum ⊢
        omega
    · by_cases hgb : g = "" <;> simp [hgb]
  · intro r hr
    simp only [listPriorityReports, List.mem_map] at hr
    obtain ⟨g, hg, rfl⟩ := hr
    refine ⟨?_, ?_⟩
    · have hsum := priority_bucket_sum
        ((rows.filter (fun r => matchesReportRange q r.createdAt)).filter
          (fun r => r.category == g))
      by_cases hgb : g = ""
      · subst hgb
        simp at hsum ⊢
        omega
      · simp [hgb] at hsum ⊢
        omega
    · by_cases hgb : g = "" <;> simp [hgb]
  · simp only [listCategoryReports, List.map_map]
    refine List.map_congr_left (fun g hg => ?_)
    by_cases hgb : g = "" <;> simp [hgb]
  · simp only [listSupporterReports, List.map_map]
    refine List.map_congr_left (fun g hg => ?_)
    by_cases hgb : g = "" <;> simp [hgb]
  · simp only [listPriorityReports, List.map_map]
    refine List.map_congr_left (fun g hg => ?_)
    by_cases hgb : g = "" <;> simp [hgb]

/-- Claim C8, witness: a concrete category report row with its buckets
summing to the total and a non-empty name. -/
theorem C8_report_invariants_witness :
    (⟨"net", 0, 1, 1, 2⟩ : CategoryReport) ∈
      listCategoryReports
        [⟨"net", "alice", "HIGHT", "FINISHED,MANAGER(APPROVE),IT(RESOLVE)",
          ⟨2024, 1, 1, 0, 0, 0, 0⟩⟩,
         ⟨"net", "bob", "LOW", "X", ⟨2024, 1, 1, 0, 0, 0, 0⟩⟩]
        ⟨GoTime.zero, GoTime.zero⟩ ∧
    ((0 : Nat) + 1 + 1 = 2 ∧ ("net" : String) ≠ "") :=
  ⟨by decide,
   (C8_report_invariants
      [⟨"net", "alice", "HIGHT", "FINISHED,MANAGER(APPROVE),IT(RESOLVE)",
        ⟨2024, 1, 1, 0, 0, 0, 0⟩⟩,
       ⟨"net", "bob", "LOW", "X", ⟨2024, 1, 1, 0, 0, 0, 0⟩⟩]
      ⟨GoTime.zero, GoTime.zero⟩).1 ⟨"net", 0, 1, 1, 2⟩ (by decide)⟩

/-! ## Claim C2: export batching -/

theorem charListLtb_irrefl : ∀ as : List Char, charListLtb as as = false := by
  intro as
  induction as with
  | nil => rfl
  | cons a as ih => simp [charListLtb, ih]

theorem strLtb_irrefl (a : String) : strLtb a a = false :=
  charListLtb_irrefl a.toList

theorem charListLtb_asymm2 :
    ∀ as bs : List Char, charListLtb as bs = true → charListLtb bs as = false := by
  intro as
  induction as with
  | nil =>
    intro bs h
    cases bs with
    | nil => simp [charListLtb] at h
    | cons b bs => rfl
  | cons a as ih =>
    intro bs h
    cases bs with
    | nil => simp [charListLtb] at h
    | cons b bs =>
      simp only [charListLtb] at h ⊢
      split_ifs at h ⊢ with g1 g2 g3 g4 <;>
        first
        | rfl
        | omega
        | (exact ih bs h)

theorem strLtb_asymm (a b : String) (h : strLtb a b = true) : strLtb b a = false :=
  charListLtb_asymm2 _ _ h

/-- In a strictly descending list, no element's identifier is strictly below
the last element's identifier. -/
theorem all_not_lt_last :
    ∀ (l : List Ticket) (m : Ticket),
      l.getLast? = some m →
      l.Pairwise (fun a b => strLtb b.ID a.ID = true) →
      ∀ a ∈ l, strLtb a.ID m.ID = false := by
  intro l
  induction l with
  | nil =>
    intro m hm
    simp at hm
  | cons x l ih =>
    intro m hm hp a ha
    rw [List.pairwise_cons] at hp
    cases hl : l with
    | nil =>
      subst hl
      simp at hm ha
      subst hm
      subst ha
      exact strLtb_irrefl _
    | cons y l2 =>
      have hm2 : l.getLast? = some m := by
        rw [hl] at hm ⊢
        rw [List.getLast?_cons_cons] at hm
        exact hm
      rcases List.mem_cons.mp ha with rfl | hal
      · have hmem : m ∈ l := List.mem_of_getLast?_eq_some hm2
        exact strLtb_asymm _ _ (hp.1 m hmem)
      · exact ih m hm2 hp.2 a hal

theorem enumFrom_map_fst (l : List Ticket) :
    ∀ s : Nat, (l.enumFrom s).map Prod.fst = List.range' s l.length := by
  induction l with
  | nil => intro s; rfl
  | cons a l ih =>
    intro s
    simp only [List.enumFrom_cons, List.map_cons, List.length_cons, List.range'_succ]
    rw [ih (s + 1)]

theorem enumFrom_map_snd (l : List Ticket) :
    ∀ s : Nat, (l.enumFrom s).map Prod.snd = l := by
  induction l with
  | nil => intro s; rfl
  | cons a l ih =>
    intro s
    simp only [List.enumFrom_cons, List.map_cons]
    rw [ih (s + 1)]

/-- Evaluating the batch query window: when the internal cursor is the last
identifier of the already-fetched prefix `l1` of a strictly descending
store, the query returns exactly the first `B` rows of the remainder. -/
theorem batch_window (l1 l2 : List Ticket) (m : Ticket) (B : Nat)
    (hsort : (l1 ++ l2).Pairwise (fun a b => strLtb b.ID a.ID = true))
    (hne : m.ID ≠ "")
    (hm : l1.getLast? = some m) :
    batchGetTicketsFromStore (l1 ++ l2) B m.ID = l2.take B := by
  unfold batchGetTicketsFromStore
  rw [if_neg hne]
  rw [List.filter_append]
  obtain ⟨hp1, hp2, hcross⟩ := List.pairwise_append.mp hsort
  have h1 : l1.filter (fun t => strLtb t.ID m.ID) = [] := by
    rw [List.filter_eq_nil_iff]
    intro a ha
    simp [all_not_lt_last l1 m hm hp1 a ha]
  have h2 : l2.filter (fun t => strLtb t.ID m.ID) = l2 := by
    rw [List.filter_eq_self]
    intro b hb
    simp [hcross m (List.mem_of_getLast?_eq_some hm) b hb]
  rw [h1, h2, List.nil_append]

/-- The batch loop over a strictly descending store: starting from any
already-consumed prefix `l1` (with the internal cursor at its last
identifier, or empty at the start), the loop dispatches exactly the pages of
the remainder `l2` in order: the pages concatenate to `l2`, there are
`ceil (|l2| / 200)` of them, each is non-empty and at most 200 long, and the
dispatched `genTicketsToExcel` writes target exactly the consecutive rows
`row, row+1, ...` carrying the remainder's tickets in order. -/
theorem genExcelLoop_spec :
    ∀ (n : Nat) (l1 l2 : List Ticket) (nid : String) (row fuel : Nat),
      l2.length = n →
      (l1 ++ l2).Pairwise (fun a b => strLtb b.ID a.ID = true) →
      (∀ t ∈ l1 ++ l2, t.ID ≠ "") →
      l2.length + 1 ≤ fuel →
      ((nid = "" ∧ l1 = []) ∨ (∃ m, l1.getLast? = some m ∧ nid = m.ID)) →
      (((genExcelLoop (l1 ++ l2) 200 fuel nid row).map Prod.snd).flatten = l2 ∧
       (genExcelLoop (l1 ++ l2) 200 fuel nid row).length = (l2.length + 199) / 200 ∧
       (((genExcelLoop (l1 ++ l2) 200 fuel nid row).map
           (fun p => genTicketsToExcelRows p.1 p.2)).flatten).map Prod.fst =
         List.range' row l2.length ∧
       (((genExcelLoop (l1 ++ l2) 200 fuel nid row).map
           (fun p => genTicketsToExcelRows p.1 p.2)).flatten).map Prod.snd = l2 ∧
       ∀ p ∈ genExcelLoop (l1 ++ l2) 200 fuel nid row, p.2 ≠ [] ∧ p.2.length ≤ 200) := by
  intro n
  induction n using Nat.strong_induction_on with
  | _ n ihn =>
    intro l1 l2 nid row fuel hn hsort hne hfuel hcur
    match fuel, hfuel with
    | f + 1, hfuel =>
      have hbatch : batchGetTicketsFromStore (l1 ++ l2) 200 nid = l2.take 200 := by
        rcases hcur with ⟨rfl, rfl⟩ | ⟨m, hm, rfl⟩
        · unfold batchGetTicketsFromStore
          rw [if_pos rfl]
          simp
        · exact batch_window l1 l2 m 200 hsort
            (hne m (List.mem_append.mpr (Or.inl (List.mem_of_getLast?_eq_some hm)))) hm
      cases hl2 : l2 with
      | nil =>
        subst hl2
        simp only [genExcelLoop, hbatch]
        simp
      | cons t l2tail =>
        rw [← hl2]
        have hl2ne : l2 ≠ [] := by rw [hl2]; simp
        have htne : l2.take 200 ≠ [] := by
          rw [hl2]
          simp [List.take_succ_cons]
        obtain ⟨last, hlast⟩ : ∃ last, (l2.take 200).getLast? = some last := by
          cases htl : (l2.take 200).getLast? with
          | some a => exact ⟨a, rfl⟩
          | none =>
            rw [List.getLast?_eq_none_iff] at htl
            exact absurd htl htne
        simp only [genExcelLoop, hbatch, hlast]
        -- recursive instance
        have hsplit : (l1 ++ l2.take 200) ++ l2.drop 200 = l1 ++ l2 := by
          rw [List.append_assoc, List.take_append_drop]
        have hlen2 : (l2.drop 200).length < n := by
          rw [List.length_drop]
          have : 0 < l2.length := by rw [hl2]; simp
          omega
        have hcur2 : (last.ID = "" ∧ l1 ++ l2.take 200 = []) ∨
            (∃ m, (l1 ++ l2.take 200).getLast? = some m ∧ last.ID = m.ID) := by
          refine Or.inr ⟨last, ?_, rfl⟩
          rw [List.getLast?_append, hlast]
          rfl
        have hrec := ihn (l2.drop 200).length hlen2 (l1 ++ l2.take 200) (l2.drop 200)
          last.ID (row + (l2.take 200).length) f rfl
          (by rw [hsplit]; exact hsort)
          (by rw [hsplit]; exact hne)
          (by
            rw [List.length_drop]
            have h1 : 0 < l2.length := by rw [hl2]; simp
            omega)
          hcur2
        rw [hsplit] at hrec
        obtain ⟨hflat, hlen, hwf, hws, hall⟩ := hrec
        refine ⟨?_, ?_, ?_, ?_, ?_⟩
        · simp only [List.map_cons, List.flatten_cons, hflat]
          exact List.take_append_drop 200 l2
        · rw [List.length_drop] at hlen
          simp only [List.length_cons, hlen]
          have h1 : 0 < l2.length := by rw [hl2]; simp
          omega
        · simp only [List.map_cons, List.flatten_cons, List.map_append, hwf]
          unfold genTicketsToExcelRows
          rw [enumFrom_map_fst]
          rw [List.range'_append_1]
          congr 1
          have h3 : (l2.take 200).length = min 200 l2.length := List.length_take 200 l2
          rw [List.length_drop]
          omega
        · simp only [List.map_cons, List.flatten_cons, List.map_append, hws]
          unfold genTicketsToExcelRows
          rw [enumFrom_map_snd]
          exact List.take_append_drop 200 l2
        · intro p hp
          rcases List.mem_cons.mp hp with rfl | hp2
          · exact ⟨htne, by simp [List.length_take]⟩
          · exact hall p hp2

/-! ## Claim C2: export completeness -/

/-- Claim C2: over a backing result set of `N` matching records (the store,
in the descending-identifier order the query produces, with non-empty
identifiers), the `GenExcel` batch loop at batch size 200 dispatches exactly
`ceil (N / 200)` non-empty batches (the following fetch returns the empty
page that ends the loop), the batches concatenate to the full result set,
and the dispatched `genTicketsToExcel` writes populate exactly the `N`
consecutive detail-sheet rows starting at row 2 — no gaps, no overlaps —
carrying the records in descending-identifier order. -/
theorem C2_export_batches (store : List Ticket)
    (hsort : store.Pairwise (fun a b => strLtb b.ID a.ID = true))
    (hne : ∀ t ∈ store, t.ID ≠ "") :
    ((genExcelPages store).map Prod.snd).flatten = store ∧
    (genExcelPages store).length = (store.length + 199) / 200 ∧
    (exportDetailWrites store).map Prod.fst = List.range' 2 store.length ∧
    (exportDetailWrites store).map Prod.snd = store ∧
    (∀ p ∈ genExcelPages store, p.2 ≠ [] ∧ p.2.length ≤ 200) ∧
    (∀ fuel, store.length + 1 ≤ fuel →
      ((genExcelLoop store 200 fuel "" 2).map Prod.snd).flatten = store ∧
      (genExcelLoop store 200 fuel "" 2).length = (store.length + 199) / 200) := by
  have hmain := genExcelLoop_spec store.length [] store "" 2 (store.length + 1) rfl
    (by simpa using hsort) (by simpa using hne) (by omega) (Or.inl ⟨rfl, rfl⟩)
  simp only [List.nil_append] at hmain
  obtain ⟨h1, h2, h3, h4, h5⟩ := hmain
  refine ⟨h1, h2, h3, h4, h5, ?_⟩
  intro fuel hf
  have h := genExcelLoop_spec store.length [] store "" 2 fuel rfl
    (by simpa using hsort) (by simpa using hne) (by omega) (Or.inl ⟨rfl, rfl⟩)
  simp only [List.nil_append] at h
  exact ⟨h.1, h.2.1⟩

theorem C2_export_batches_witness :
    (([⟨"c", "", "", "", "", "", "", ⟨"", "", "", "", ""⟩, ⟨"", ""⟩, GoTime.zero, GoTime.zero⟩,
       ⟨"b", "", "", "", "", "", "", ⟨"", "", "", "", ""⟩, ⟨"", ""⟩, GoTime.zero, GoTime.zero⟩,
       ⟨"a", "", "", "", "", "", "", ⟨"", "", "", "", ""⟩, ⟨"", ""⟩, GoTime.zero, GoTime.zero⟩] :
        List Ticket).Pairwise (fun a b => strLtb b.ID a.ID = true)) ∧
    (genExcelPages
      [⟨"c", "", "", "", "", "", "", ⟨"", "", "", "", ""⟩, ⟨"", ""⟩, GoTime.zero, GoTime.zero⟩,
       ⟨"b", "", "", "", "", "", "", ⟨"", "", "", "", ""⟩, ⟨"", ""⟩, GoTime.zero, GoTime.zero⟩,
       ⟨"a", "", "", "", "", "", "", ⟨"", "", "", "", ""⟩, ⟨"", ""⟩, GoTime.zero, GoTime.zero⟩]).length =
      (3 + 199) / 200 := by
  refine ⟨by decide, ?_⟩
  exact (C2_export_batches
    [⟨"c", "", "", "", "", "", "", ⟨"", "", "", "", ""⟩, ⟨"", ""⟩, GoTime.zero, GoTime.zero⟩,
     ⟨"b", "", "", "", "", "", "", ⟨"", "", "", "", ""⟩, ⟨"", ""⟩, GoTime.zero, GoTime.zero⟩,
     ⟨"a", "", "", "", "", "", "", ⟨"", "", "", "", ""⟩, ⟨"", ""⟩, GoTime.zero, GoTime.zero⟩]
    (by decide) (by decide)).2.1
